import Mathlib

/-!
# ADEPT driver: packing, launch configuration and buffer lifecycle

A shallow embedding of `src/adept/driver.cpp` (the batched-alignment driver) and of the
file-reading and result-checking glue of `src/examples/asynch_protein/asynch_protein.cpp`.

Conventions of the embedding.

* A `std::string` is the list of its `char`s, a `std::vector<std::string>` a list of those.
* `unsigned` variables are natural numbers reduced modulo `2^32` at every assignment.
  Sizes handed to the allocator are computed in `size_t`.  An `int` holds a natural number
  below `2^31`: the increment of a counter `int i` that holds `2^31 - 1`, and the storing of
  a size of `2^31` or more in the 32-bit member `total_alignments`, are a `Fault`.
* Memory obtained from `cudaMallocHost` / `cudaMalloc` is a block in a `Heap`; the driver
  keeps a handle to it, and for the buffers it reads or writes also the cells of the block.
  A cell is `none` until it is written.
* Every access is bounds-checked: an access outside its block, a read of a cell that was
  never written, and a release of a handle that is not live are a `Fault`.  The last one is
  what `cudaErrchk` makes fatal; the first two are undefined behaviour in the source.
* The scoring parameters, the device selection and the stream are not embedded: no property
  stated below depends on them and they touch no buffer.
-/

namespace ADEPT

/-! ## Strings, faults, buffers -/

/-- A `std::string`, as the list of its characters. -/
abbrev Str := List Char

/-- The arrays and vectors the driver indexes. -/
inductive Arr
  | ref_seqs | query_seqs
  | offset_ref | offset_que
  | ref_cstr | que_cstr
  | ref_cstr_d | que_cstr_d
  | offset_ref_gpu | offset_query_gpu
  deriving DecidableEq, Repr

/-- The ways a run of the driver leaves defined behaviour. -/
inductive Fault
  /-- An access to `arr[index]` (or a copy whose last byte is at `index - 1`) outside `arr`. -/
  | outOfRange (arr : Arr) (index : Int)
  /-- A read of `arr[index]` before anything was stored there. -/
  | uninitialised (arr : Arr) (index : Int)
  /-- The handle was given to `cudaFree` / `cudaFreeHost` while not allocated in that space. -/
  | invalidRelease (handle : Nat)
  /-- The increment `i++` of an `int` counter that holds `counter = 2^31 - 1`. -/
  | intOverflow (counter : Nat)
  /-- A vector size that the 32-bit `int` member `total_alignments` cannot hold. -/
  | sizeTooLarge (size : Nat)
  deriving DecidableEq, Repr

deriving instance DecidableEq for Except

/-- Where a block lives: pinned host memory or device memory. -/
inductive MemSpace
  | host | device
  deriving DecidableEq, Repr

/-- One allocation: its space and its size in bytes. -/
structure Block where
  space : MemSpace
  bytes : Nat
  deriving DecidableEq, Repr

/-- The allocator state.  A handle is the position of its block in `blocks`;
`released` lists, in call order, the handles that were released. -/
structure Heap where
  blocks : List Block
  released : List Nat
  deriving DecidableEq, Repr

/-- The heap before any allocation. -/
def Heap.empty : Heap := ⟨[], []⟩

/-- A handle is live when it was handed out and not yet released. -/
def Heap.isLive (h : Heap) (p : Nat) : Bool :=
  decide (p < h.blocks.length) && !(h.released.contains p)

/-- The handles that are still allocated. -/
def Heap.liveHandles (h : Heap) : List Nat :=
  (List.range h.blocks.length).filter (fun p => h.isLive p)

/-- A typed view of a block: the handle and the cells, `none` where nothing was stored yet. -/
structure Buf (α : Type) where
  handle : Nat
  cells : List (Option α)
  deriving DecidableEq, Repr

/-- Fresh block of `bytes` bytes in `space`; returns its handle. -/
def Heap.alloc (h : Heap) (space : MemSpace) (bytes : Nat) : Nat × Heap :=
  (h.blocks.length, { h with blocks := h.blocks ++ [⟨space, bytes⟩] })

/-- Body of `cudaMallocHost(&p, bytes)` for a buffer of elements of `elemSize` bytes. -/
def cudaMallocHost (α : Type) (h : Heap) (elemSize bytes : Nat) : Buf α × Heap :=
  ((⟨(h.alloc .host bytes).1, List.replicate (bytes / elemSize) none⟩ : Buf α),
    (h.alloc .host bytes).2)

/-- Body of `cudaMalloc(&p, bytes)` for a buffer of elements of `elemSize` bytes. -/
def cudaMalloc (α : Type) (h : Heap) (elemSize bytes : Nat) : Buf α × Heap :=
  ((⟨(h.alloc .device bytes).1, List.replicate (bytes / elemSize) none⟩ : Buf α),
    (h.alloc .device bytes).2)

/-- Release of handle `p` in `space`: an error unless `p` is a live block of that space. -/
def Heap.release (h : Heap) (space : MemSpace) (p : Nat) : Except Fault Heap :=
  match h.blocks[p]? with
  | some b =>
    if b.space = space ∧ h.isLive p = true then
      .ok { h with released := h.released ++ [p] }
    else .error (.invalidRelease p)
  | none => .error (.invalidRelease p)

/-- The call `cudaErrchk(cudaFreeHost(p))`. -/
def cudaFreeHost (h : Heap) (p : Nat) : Except Fault Heap := h.release .host p

/-- The call `cudaErrchk(cudaFree(p))`. -/
def cudaFree (h : Heap) (p : Nat) : Except Fault Heap := h.release .device p

/-- The read `v[i]` of a vector. -/
def vecGet {α : Type} (name : Arr) (v : List α) (i : Nat) : Except Fault α :=
  match v[i]? with
  | some x => .ok x
  | none => .error (.outOfRange name i)

/-- The store `buf[i] = x`. -/
def bufSet {α : Type} (name : Arr) (cells : List (Option α)) (i : Nat) (x : α) :
    Except Fault (List (Option α)) :=
  if i < cells.length then .ok (cells.set i (some x)) else .error (.outOfRange name i)

/-- The read `buf[i]` at a signed index. -/
def bufGet {α : Type} (name : Arr) (cells : List (Option α)) (i : Int) : Except Fault α :=
  if 0 ≤ i ∧ i < cells.length then
    match cells[i.toNat]? with
    | some (some x) => .ok x
    | _ => .error (.uninitialised name i)
  else .error (.outOfRange name i)

/-- The call `memcpy(buf + off, src.c_str(), src.size())`. -/
def memcpy (name : Arr) (cells : List (Option Char)) (off : Nat) (src : Str) :
    Except Fault (List (Option Char)) :=
  if off + src.length ≤ cells.length then
    .ok (cells.take off ++ src.map some ++ cells.drop (off + src.length))
  else .error (.outOfRange name (off + src.length))

/-- The call `cudaMemcpyAsync(dst, src, bytes, ...)`, taken in stream order: the first
`bytes / elemSize` cells of `src` replace the first `bytes / elemSize` cells of `dst`. -/
def cudaMemcpyAsync {α : Type} (dstName srcName : Arr) (dst src : List (Option α))
    (elemSize bytes : Nat) : Except Fault (List (Option α)) :=
  if src.length < bytes / elemSize then .error (.outOfRange srcName (bytes / elemSize))
  else if dst.length < bytes / elemSize then .error (.outOfRange dstName (bytes / elemSize))
  else .ok (src.take (bytes / elemSize) ++ dst.drop (bytes / elemSize))

/-- The increment `i++` of a loop counter `int i`: signed overflow past `2^31 - 1` is
undefined. -/
def intIncr (i : Nat) : Except Fault Nat :=
  if i + 1 < 2 ^ 31 then .ok (i + 1) else .error (.intOverflow i)

/-- The assignment `total_alignments = ref_seqs.size()` (line 46) of a `size_t` to a member
of 32 bits.  The declaration of the member is in `driver.hpp`; it is read as `int`, the type
of the counters it is compared with, of the parameter of `initialize_alignments` and of the
local of the same name in `main`.  A size of `2^31` or more has no `int` value that the rest
of the method could use as the batch size. -/
def sizeToInt (size : Nat) : Except Fault Nat :=
  if size < 2 ^ 31 then .ok size else .error (.sizeTooLarge size)

/-! ## The driver -/

/-- `getMaxLength` of `driver.cpp`: `maxLength` is `unsigned`, `str.length()` is `size_t`. -/
def getMaxLength (v : List Str) : Nat :=
  v.foldl (fun maxLength str => if maxLength < str.length then str.length % 2 ^ 32
    else maxLength) 0

/-- The members of `driver` that hold sizes and buffers. -/
structure driver where
  total_alignments : Nat
  max_ref_size : Nat
  max_que_size : Nat
  total_length_ref : Nat
  total_length_que : Nat
  offset_ref : Buf Nat
  offset_que : Buf Nat
  ref_cstr : Buf Char
  que_cstr : Buf Char
  ref_begin : Nat
  ref_end : Nat
  query_begin : Nat
  query_end : Nat
  top_scores : Nat
  ref_cstr_d : Buf Char
  que_cstr_d : Buf Char
  offset_ref_gpu : Buf Nat
  offset_query_gpu : Buf Nat
  ref_start_gpu : Nat
  ref_end_gpu : Nat
  query_start_gpu : Nat
  query_end_gpu : Nat
  scores_gpu : Nat
  deriving DecidableEq, Repr

/-- `sizeof(int)`. -/
def sizeofInt : Nat := 4

/-- `sizeof(short)`. -/
def sizeofShort : Nat := 2

/-- `sizeof(char)`. -/
def sizeofChar : Nat := 1

/-- The method `driver::initialize_alignments(max_alignments)`: five pinned result buffers. -/
def initialize_alignments (d : driver) (max_alignments : Nat) (h : Heap) : driver × Heap :=
  let a1 := h.alloc .host (sizeofShort * max_alignments)
  let a2 := a1.2.alloc .host (sizeofShort * max_alignments)
  let a3 := a2.2.alloc .host (sizeofShort * max_alignments)
  let a4 := a3.2.alloc .host (sizeofShort * max_alignments)
  let a5 := a4.2.alloc .host (sizeofShort * max_alignments)
  ({ d with ref_begin := a1.1, ref_end := a2.1, query_begin := a3.1, query_end := a4.1,
            top_scores := a5.1 }, a5.2)

/-- The method `driver::allocate_gpu_mem()`: the device offsets and the device results. -/
def allocate_gpu_mem (d : driver) (h : Heap) : driver × Heap :=
  let a1 := cudaMalloc Nat h sizeofInt (d.total_alignments * sizeofInt)
  let a2 := cudaMalloc Nat a1.2 sizeofInt (d.total_alignments * sizeofInt)
  let a3 := a2.2.alloc .device (d.total_alignments * sizeofShort)
  let a4 := a3.2.alloc .device (d.total_alignments * sizeofShort)
  let a5 := a4.2.alloc .device (d.total_alignments * sizeofShort)
  let a6 := a5.2.alloc .device (d.total_alignments * sizeofShort)
  let a7 := a6.2.alloc .device (d.total_alignments * sizeofShort)
  ({ d with offset_query_gpu := a1.1, offset_ref_gpu := a2.1, ref_start_gpu := a3.1,
            ref_end_gpu := a4.1, query_end_gpu := a5.1, query_start_gpu := a6.1,
            scores_gpu := a7.1 }, a7.2)

/-- The loop `for(int i = 0; i < count; i++){ running_sum += seqs[i].size();
offset[i] = running_sum; }`, with `k` rounds still to run from counter `i`; every round ends
with the increment of the `int` counter. -/
def offsetLoop (seqName offName : Arr) (seqs : List Str) :
    Nat → Nat → Nat → List (Option Nat) → Except Fault (List (Option Nat))
  | 0, _, _, cells => .ok cells
  | k + 1, i, running_sum, cells => do
    let s ← vecGet seqName seqs i
    let cells ← bufSet offName cells i ((running_sum + s.length) % 2 ^ 32)
    let next ← intIncr i
    offsetLoop seqName offName seqs k next ((running_sum + s.length) % 2 ^ 32) cells

/-- The loop that moves the sequences into `ref_cstr` and `que_cstr`, with `k` rounds still
to run from counter `i`; every round ends with the increment of the `int` counter. -/
def packLoop (ref_seqs query_seqs : List Str) :
    Nat → Nat → Nat → Nat → List (Option Char) → List (Option Char) →
      Except Fault (List (Option Char) × List (Option Char))
  | 0, _, _, _, ref_cstr, que_cstr => .ok (ref_cstr, que_cstr)
  | k + 1, i, offsetSumA, offsetSumB, ref_cstr, que_cstr => do
    let r ← vecGet .ref_seqs ref_seqs i
    let ref_cstr ← memcpy .ref_cstr ref_cstr offsetSumA r
    let q ← vecGet .query_seqs query_seqs i
    let que_cstr ← memcpy .que_cstr que_cstr offsetSumB q
    let next ← intIncr i
    packLoop ref_seqs query_seqs k next ((offsetSumA + r.length) % 2 ^ 32)
      ((offsetSumB + q.length) % 2 ^ 32) ref_cstr que_cstr

/-- The method `driver::mem_cpy_htd`, called with the members as pointer arguments: the two
offset tables and the first `totalLengthA` / `totalLengthB` characters go to the device. -/
def driver.mem_cpy_htd (d : driver) (totalLengthA totalLengthB : Nat) : Except Fault driver := do
  let offA ← cudaMemcpyAsync .offset_ref_gpu .offset_ref d.offset_ref_gpu.cells
    d.offset_ref.cells sizeofInt (d.total_alignments * sizeofInt)
  let offB ← cudaMemcpyAsync .offset_query_gpu .offset_que d.offset_query_gpu.cells
    d.offset_que.cells sizeofInt (d.total_alignments * sizeofInt)
  let strA ← cudaMemcpyAsync .ref_cstr_d .ref_cstr d.ref_cstr_d.cells d.ref_cstr.cells
    sizeofChar (totalLengthA * sizeofChar)
  let strB ← cudaMemcpyAsync .que_cstr_d .que_cstr d.que_cstr_d.cells d.que_cstr.cells
    sizeofChar (totalLengthB * sizeofChar)
  .ok { d with offset_ref_gpu := ⟨d.offset_ref_gpu.handle, offA⟩,
               offset_query_gpu := ⟨d.offset_query_gpu.handle, offB⟩,
               ref_cstr_d := ⟨d.ref_cstr_d.handle, strA⟩,
               que_cstr_d := ⟨d.que_cstr_d.handle, strB⟩ }

/-- The allocations of `driver::initialize` (lines 47 to 61), in source order;
`total_alignments` is the value that line 46 stored in the member. -/
def driver.allocate (d : driver) (total_alignments : Nat) (ref_seqs query_seqs : List Str)
    (h : Heap) : driver × Heap :=
  let n := total_alignments
  let mr := getMaxLength ref_seqs
  let mq := getMaxLength query_seqs
  let a1 := cudaMallocHost Nat h sizeofInt (sizeofInt * n)
  let a2 := cudaMallocHost Nat a1.2 sizeofInt (sizeofInt * n)
  let a3 := cudaMallocHost Char a2.2 sizeofChar (sizeofChar * mr * n)
  let a4 := cudaMallocHost Char a3.2 sizeofChar (sizeofChar * mq * n)
  let r := initialize_alignments
    { d with total_alignments := n, max_ref_size := mr, max_que_size := mq,
             offset_ref := a1.1, offset_que := a2.1, ref_cstr := a3.1, que_cstr := a4.1 }
    n a4.2
  let a5 := cudaMalloc Char r.2 sizeofChar (sizeofChar * mr * n)
  let a6 := cudaMalloc Char a5.2 sizeofChar (sizeofChar * mq * n)
  allocate_gpu_mem { r.1 with ref_cstr_d := a5.1, que_cstr_d := a6.1 } a6.2

/-- The method `driver::initialize`: the batch size, the allocations, the two offset tables,
the packing loop and the copy to the device. -/
def driver.initialize (d : driver) (ref_seqs query_seqs : List Str) (h : Heap) :
    Except Fault (driver × Heap) :=
  do
    let total_alignments ← sizeToInt ref_seqs.length
    let a := d.allocate total_alignments ref_seqs query_seqs h
    let offset_ref ← offsetLoop .ref_seqs .offset_ref ref_seqs a.1.total_alignments 0 0
      a.1.offset_ref.cells
    let total_length_ref ← bufGet .offset_ref offset_ref ((a.1.total_alignments : Int) - 1)
    let offset_que ← offsetLoop .query_seqs .offset_que query_seqs query_seqs.length 0 0
      a.1.offset_que.cells
    let total_length_que ← bufGet .offset_que offset_que ((a.1.total_alignments : Int) - 1)
    let packed ← packLoop ref_seqs query_seqs ref_seqs.length 0 0 0 a.1.ref_cstr.cells
      a.1.que_cstr.cells
    let d ← driver.mem_cpy_htd
      { a.1 with offset_ref := ⟨a.1.offset_ref.handle, offset_ref⟩,
                 offset_que := ⟨a.1.offset_que.handle, offset_que⟩,
                 total_length_ref := total_length_ref,
                 total_length_que := total_length_que,
                 ref_cstr := ⟨a.1.ref_cstr.handle, packed.1⟩,
                 que_cstr := ⟨a.1.que_cstr.handle, packed.2⟩ }
      total_length_ref total_length_que
    .ok (d, a.2)

/-- What `driver::kernel_launch` hands to the runtime. -/
structure Launch where
  /-- The value given to `cudaFuncSetAttribute(..., MaxDynamicSharedMemorySize, ...)`,
  `none` when the call is not made. -/
  maxDynamicSharedMemorySize : Option Nat
  gridDim : Nat
  blockDim : Nat
  sharedMem : Nat
  deriving DecidableEq, Repr

/-- The local `unsigned minSize` of `kernel_launch`. -/
def minSize (max_ref_size max_que_size : Nat) : Nat :=
  if max_que_size < max_ref_size then max_que_size else max_ref_size

/-- The local `unsigned totShmem = 3 * (minSize + 1) * sizeof(short)`: the sum and the first
product are `unsigned`, the second product is `size_t` and is narrowed by the assignment. -/
def totShmem (max_ref_size max_que_size : Nat) : Nat :=
  (3 * ((minSize max_ref_size max_que_size + 1) % 2 ^ 32) % 2 ^ 32 * sizeofShort) % 2 ^ 32

/-- The local `unsigned alignmentPad = 4 + (4 - totShmem % 4)`. -/
def alignmentPad (max_ref_size max_que_size : Nat) : Nat :=
  (4 + (4 - totShmem max_ref_size max_que_size % 4)) % 2 ^ 32

/-- The local `size_t ShmemBytes = totShmem + alignmentPad`: an `unsigned` sum, widened. -/
def ShmemBytes (max_ref_size max_que_size : Nat) : Nat :=
  (totShmem max_ref_size max_que_size + alignmentPad max_ref_size max_que_size) % 2 ^ 32

/-- The method `driver::kernel_launch`. -/
def driver.kernel_launch (d : driver) : Launch :=
  { maxDynamicSharedMemorySize :=
      if ShmemBytes d.max_ref_size d.max_que_size > 48000 then
        some (ShmemBytes d.max_ref_size d.max_que_size)
      else none
    gridDim := d.total_alignments
    blockDim := minSize d.max_ref_size d.max_que_size
    sharedMem := ShmemBytes d.max_ref_size d.max_que_size }

/-- The method `driver::dealloc_gpu_mem`. -/
def driver.dealloc_gpu_mem (d : driver) (h : Heap) : Except Fault Heap := do
  let h ← cudaFree h d.offset_ref_gpu.handle
  let h ← cudaFree h d.offset_query_gpu.handle
  let h ← cudaFree h d.ref_start_gpu
  let h ← cudaFree h d.ref_end_gpu
  let h ← cudaFree h d.query_start_gpu
  let h ← cudaFree h d.query_end_gpu
  let h ← cudaFree h d.ref_cstr_d.handle
  cudaFree h d.que_cstr_d.handle

/-- The method `driver::cleanup`. -/
def driver.cleanup (d : driver) (h : Heap) : Except Fault Heap := do
  let h ← cudaFreeHost h d.offset_ref.handle
  let h ← cudaFreeHost h d.offset_que.handle
  let h ← cudaFreeHost h d.ref_cstr.handle
  let h ← cudaFreeHost h d.que_cstr.handle
  d.dealloc_gpu_mem h

/-- The method `driver::free_results`. -/
def driver.free_results (d : driver) (h : Heap) : Except Fault Heap := do
  let h ← cudaFreeHost h d.ref_begin
  let h ← cudaFreeHost h d.ref_end
  let h ← cudaFreeHost h d.query_begin
  let h ← cudaFreeHost h d.query_end
  cudaFreeHost h d.top_scores

/-- A driver object before `initialize`: no member has been set. -/
def driver.created : driver :=
  { total_alignments := 0, max_ref_size := 0, max_que_size := 0, total_length_ref := 0,
    total_length_que := 0, offset_ref := ⟨0, []⟩, offset_que := ⟨0, []⟩, ref_cstr := ⟨0, []⟩,
    que_cstr := ⟨0, []⟩, ref_begin := 0, ref_end := 0, query_begin := 0, query_end := 0,
    top_scores := 0, ref_cstr_d := ⟨0, []⟩, que_cstr_d := ⟨0, []⟩, offset_ref_gpu := ⟨0, []⟩,
    offset_query_gpu := ⟨0, []⟩, ref_start_gpu := 0, ref_end_gpu := 0, query_start_gpu := 0,
    query_end_gpu := 0, scores_gpu := 0 }

/-- A session as `main` runs it after the launch: `initialize` on a fresh driver and an
empty heap, then `free_results`, then `cleanup`.  Returns the driver and the final heap. -/
def runSession (ref_seqs query_seqs : List Str) : Except Fault (driver × Heap) := do
  let s ← driver.initialize driver.created ref_seqs query_seqs Heap.empty
  let h ← s.1.free_results s.2
  let h ← s.1.cleanup h
  .ok (s.1, h)

/-- The calls `initialize` and `cleanup` on a fresh driver and an empty heap. -/
def initializeThenCleanup (ref_seqs query_seqs : List Str) : Except Fault (driver × Heap) := do
  let s ← driver.initialize driver.created ref_seqs query_seqs Heap.empty
  let h ← s.1.cleanup s.2
  .ok (s.1, h)

/-- The calls `initialize`, `cleanup` and `cleanup` again. -/
def cleanupTwice (ref_seqs query_seqs : List Str) : Except Fault (driver × Heap) := do
  let s ← initializeThenCleanup ref_seqs query_seqs
  let h ← s.1.cleanup s.2
  .ok (s.1, h)

/-! ## The example application: streams, reading the batch, checking the results -/

/-- A `std::ifstream`: whether the file was opened, the characters not yet read, and the
state bits. -/
structure IfStream where
  is_open : Bool
  rest : List Char
  eofbit : Bool
  failbit : Bool
  deriving DecidableEq, Repr

/-- The constructor `std::ifstream s(name)`; `none` is a file that cannot be opened. -/
def ifstream (content : Option (List Char)) : IfStream :=
  match content with
  | some cs => ⟨true, cs, false, false⟩
  | none => ⟨false, [], false, true⟩

/-- The characters before the first newline, and what follows that newline; `none` when
the end of the input comes first. -/
def splitLine : List Char → Str × Option (List Char)
  | [] => ([], none)
  | c :: cs => if c = '\n' then ([], some cs) else ((c :: (splitLine cs).1), (splitLine cs).2)

/-- What a call of `std::getline` leaves: its value in a condition, the stream, and the
string argument. -/
structure GetLine where
  ok : Bool
  stream : IfStream
  str : Str
  deriving DecidableEq, Repr

/-- The call `std::getline(s, str)`.  On a stream that is not good the call fails and `str`
keeps its value.  Otherwise `str` is erased and filled up to the next newline, which is
consumed; reaching the end of the input sets `eofbit`, and if nothing at all was
extracted the call fails. -/
def getline (s : IfStream) (str : Str) : GetLine :=
  if s.eofbit || s.failbit then ⟨false, { s with failbit := true }, str⟩
  else
    match s.rest with
    | [] => ⟨false, { s with eofbit := true, failbit := true }, []⟩
    | c :: cs =>
      match (splitLine (c :: cs)).2 with
      | some rest => ⟨true, { s with rest := rest }, (splitLine (c :: cs)).1⟩
      | none => ⟨true, { s with rest := [], eofbit := true }, (splitLine (c :: cs)).1⟩

/-- The constant `MAX_REF_LEN`. -/
def MAX_REF_LEN : Nat := 1200

/-- The constant `MAX_QUERY_LEN`. -/
def MAX_QUERY_LEN : Nat := 600

/-- The constant `DATA_SIZE`, the largest `unsigned int`. -/
def DATA_SIZE : Nat := 2 ^ 32 - 1

/-- The variables of the reading loop of `main`.  The statistics `totSizeA`, `totSizeB`,
`largestA`, `largestB` are written by the loop and read nowhere; they are not kept. -/
structure ReadState where
  ref_file : IfStream
  quer_file : IfStream
  lineR : Str
  lineQ : Str
  ref_sequences : List Str
  que_sequences : List Str
  deriving DecidableEq, Repr

/-- The variables after the two `getline` calls that open a round of the reading loop. -/
def ReadState.advance (st : ReadState) : ReadState :=
  { st with ref_file := (getline st.ref_file st.lineR).stream
            quer_file := (getline st.quer_file st.lineQ).stream
            lineR := (getline st.ref_file st.lineR).str
            lineQ := (getline st.quer_file st.lineQ).str }

/-- The two `push_back` calls of the reading loop. -/
def ReadState.push (st : ReadState) : ReadState :=
  { st with ref_sequences := st.ref_sequences ++ [st.lineR]
            que_sequences := st.que_sequences ++ [st.lineQ] }

/-- One round of the loop `while(getline(ref_file, lineR))` of `main`: the variables after
the round and whether the loop goes on.  A line starting with `>` is passed over by
`continue`; otherwise the pair is stored if both lines are within the limits, and the loop
ends when `DATA_SIZE` sequences are stored.  An error is the exit code of the process. -/
def readStep (st : ReadState) : Except Int (Bool × ReadState) :=
  if (getline st.ref_file st.lineR).ok then
    if st.advance.lineR.head? = some '>' then
      if st.advance.lineR.head? = some '>' then .ok (true, st.advance)
      else .error (-2)
    else if st.advance.lineR.length ≤ MAX_REF_LEN
        ∧ st.advance.lineQ.length ≤ MAX_QUERY_LEN then
      .ok (decide (st.advance.push.ref_sequences.length ≠ DATA_SIZE), st.advance.push)
    else
      .ok (decide (st.advance.ref_sequences.length ≠ DATA_SIZE), st.advance)
  else
    .ok (false, { st with ref_file := (getline st.ref_file st.lineR).stream
                          lineR := (getline st.ref_file st.lineR).str })

/-- The reading loop of `main`, for at most `fuel` rounds. -/
def readLoop : Nat → ReadState → Except Int ReadState
  | 0, st => .ok st
  | fuel + 1, st =>
    match readStep st with
    | .error code => .error code
    | .ok (false, st') => .ok st'
    | .ok (true, st') => readLoop fuel st'

/-- The part of `main` that reads the two files into `ref_sequences` and `que_sequences`
(lines 85 to 137).  Every round of the loop that goes on consumes a character of the
reference file, so one round more than its length is enough. -/
def readSequences (refFile queFile : Option (List Char)) : Except Int (List Str × List Str) :=
  if (ifstream refFile).is_open && (ifstream queFile).is_open then
    (readLoop ((ifstream refFile).rest.length + 1)
        ⟨ifstream refFile, ifstream queFile, [], [], [], []⟩).map
      (fun st => (st.ref_sequences, st.que_sequences))
  else .ok ([], [])

/-- The variables of `verify_correctness`. -/
structure VerifyState where
  ref_file : IfStream
  test_file : IfStream
  ref_line : Str
  test_line : Str
  isSame : Int
  deriving DecidableEq, Repr

/-- One round of the loop `while(getline(ref_file, ref_line) && getline(test_file,
test_line))` of `verify_correctness`: the variables after the round and whether the loop
goes on.  The second `getline` is only called when the first one succeeds. -/
def verifyStep (st : VerifyState) : Bool × VerifyState :=
  if (getline st.ref_file st.ref_line).ok then
    if (getline st.test_file st.test_line).ok then
      (true,
        { ref_file := (getline st.ref_file st.ref_line).stream
          test_file := (getline st.test_file st.test_line).stream
          ref_line := (getline st.ref_file st.ref_line).str
          test_line := (getline st.test_file st.test_line).str
          isSame :=
            if (getline st.test_file st.test_line).str
                ≠ (getline st.ref_file st.ref_line).str then -1
            else st.isSame })
    else
      (false,
        { st with ref_file := (getline st.ref_file st.ref_line).stream
                  test_file := (getline st.test_file st.test_line).stream
                  ref_line := (getline st.ref_file st.ref_line).str
                  test_line := (getline st.test_file st.test_line).str })
  else
    (false,
      { st with ref_file := (getline st.ref_file st.ref_line).stream
                ref_line := (getline st.ref_file st.ref_line).str })

/-- The loop of `verify_correctness`, for at most `fuel` rounds. -/
def verifyLoop : Nat → VerifyState → VerifyState
  | 0, st => st
  | fuel + 1, st =>
    match verifyStep st with
    | (false, st') => st'
    | (true, st') => verifyLoop fuel st'

/-- The two `if`s after the loop of `verify_correctness`. -/
def verifyTail (st : VerifyState) : Int :=
  let isSame : Int :=
    if (getline st.ref_file st.ref_line).ok ∧ st.test_line ≠ [] then -2 else st.isSame
  if (getline st.test_file st.test_line).ok ∧ (getline st.test_file st.test_line).str ≠ []
  then -3 else isSame

/-- The function `verify_correctness(file1, file2)`; a file is its content, or `none` when
it cannot be opened.  Every round of the loop that goes on consumes a character of the
reference file, so one round more than its length is enough. -/
def verify_correctness (file1 file2 : Option (List Char)) : Int :=
  if (ifstream file1).is_open && (ifstream file2).is_open then
    verifyTail (verifyLoop ((ifstream file1).rest.length + 1)
      ⟨ifstream file1, ifstream file2, [], [], 0⟩)
  else -4

end ADEPT

namespace ADEPT

/-! ## What the packed form should be -/

/-- Total length of the first `i` sequences. -/
def prefixLength (seqs : List Str) (i : Nat) : Nat :=
  ((seqs.take i).map List.length).sum

/-- Total length of all sequences of one side. -/
def totalLength (seqs : List Str) : Nat :=
  (seqs.map List.length).sum

/-- The table of cumulative lengths: entry `i` is the total length of sequences `0..i`. -/
def prefixSums (seqs : List Str) : List Nat :=
  (List.range seqs.length).map (fun i => prefixLength seqs (i + 1))

/-- The packed cells of one side in a block of `cap` cells: the sequences back to back, the
rest of the block untouched. -/
def packedCells (seqs : List Str) (cap : Nat) : List (Option Char) :=
  seqs.flatten.map some ++ List.replicate (cap - totalLength seqs) none

/-- The driver that `initialize` should leave behind: the members set by the allocation, the
two offset tables filled with the cumulative lengths, the two character buffers packed, and
the device copies of all four. -/
def driver.packed (d : driver) (ref_seqs query_seqs : List Str) (h : Heap) : driver :=
  { (d.allocate ref_seqs.length ref_seqs query_seqs h).1 with
    total_length_ref := totalLength ref_seqs
    total_length_que := totalLength query_seqs
    offset_ref := ⟨(d.allocate ref_seqs.length ref_seqs query_seqs h).1.offset_ref.handle,
      (prefixSums ref_seqs).map some⟩
    offset_que := ⟨(d.allocate ref_seqs.length ref_seqs query_seqs h).1.offset_que.handle,
      (prefixSums query_seqs).map some⟩
    ref_cstr := ⟨(d.allocate ref_seqs.length ref_seqs query_seqs h).1.ref_cstr.handle,
      packedCells ref_seqs (getMaxLength ref_seqs * ref_seqs.length)⟩
    que_cstr := ⟨(d.allocate ref_seqs.length ref_seqs query_seqs h).1.que_cstr.handle,
      packedCells query_seqs (getMaxLength query_seqs * ref_seqs.length)⟩
    offset_ref_gpu := ⟨(d.allocate ref_seqs.length ref_seqs query_seqs h).1.offset_ref_gpu.handle,
      (prefixSums ref_seqs).map some⟩
    offset_query_gpu := ⟨(d.allocate ref_seqs.length ref_seqs query_seqs h).1.offset_query_gpu.handle,
      (prefixSums query_seqs).map some⟩
    ref_cstr_d := ⟨(d.allocate ref_seqs.length ref_seqs query_seqs h).1.ref_cstr_d.handle,
      packedCells ref_seqs (getMaxLength ref_seqs * ref_seqs.length)⟩
    que_cstr_d := ⟨(d.allocate ref_seqs.length ref_seqs query_seqs h).1.que_cstr_d.handle,
      packedCells query_seqs (getMaxLength query_seqs * ref_seqs.length)⟩ }

/-- The cells are the offset table of `seqs` with final value `total`: one entry per
sequence, entry `i` the sum of the lengths of sequences `0..i`, no entry smaller than an
earlier one, and the last entry and `total` both the sum of all lengths. -/
def OffsetTableOf (cells : List (Option Nat)) (seqs : List Str) (total : Nat) : Prop :=
  cells.length = seqs.length
  ∧ (∀ i, i < seqs.length →
      cells[i]? = some (some (((seqs.take (i + 1)).map List.length).sum)))
  ∧ (∀ i j x y : Nat, i ≤ j → cells[i]? = some (some x) → cells[j]? = some (some y) → x ≤ y)
  ∧ cells[seqs.length - 1]? = some (some total)
  ∧ total = (seqs.map List.length).sum

/-- The characters held by a run of cells, `none` if one of them was never written. -/
def readCells : List (Option Char) → Option Str
  | [] => some []
  | none :: _ => none
  | some c :: t => (readCells t).map (fun s => c :: s)

/-- The entry `offset[i - 1]`, with the convention `offset[-1] = 0`. -/
def offsetBefore (offset : List (Option Nat)) (i : Nat) : Option Nat :=
  if i = 0 then some 0 else (offset[i - 1]?).join

/-- Unpacking sequence `i`: the characters in the cells `[offset[i-1], offset[i])` of the
packed buffer; `none` if an offset is missing, the range leaves the buffer, or a cell in
it was never written. -/
def unpack (cstr : List (Option Char)) (offset : List (Option Nat)) (i : Nat) : Option Str :=
  match offsetBefore offset i, (offset[i]?).join with
  | some lo, some hi =>
    if lo ≤ hi ∧ hi ≤ cstr.length then readCells ((cstr.drop lo).take (hi - lo)) else none
  | _, _ => none

/-- The stored batch respects the limits: as many queries as references, no reference
longer than `MAX_REF_LEN`, no query longer than `MAX_QUERY_LEN`. -/
def WithinLimits (refs ques : List Str) : Prop :=
  refs.length = ques.length
    ∧ (∀ s ∈ refs, s.length ≤ MAX_REF_LEN) ∧ (∀ s ∈ ques, s.length ≤ MAX_QUERY_LEN)

/-- A reference line of 1201 characters, one more than `MAX_REF_LEN`. -/
def longLine : Str := List.replicate 1201 'A'

/-- The content of a text file with the lines `ls`, each ended by a newline. -/
def fileOf (ls : List Str) : List Char :=
  (ls.map (fun l => l ++ ['\n'])).flatten

/-- One side of a batch of `2^31` jobs, every sequence empty. -/
def hugeBatch : List Str := List.replicate (2 ^ 31) []

/-- The batch of the two-job scenario: references `ACGT`, `AC`. -/
def scenarioRefs : List Str := [['A', 'C', 'G', 'T'], ['A', 'C']]

/-- The batch of the two-job scenario: queries `ACGG`, `AC`. -/
def scenarioQueries : List Str := [['A', 'C', 'G', 'G'], ['A', 'C']]

/-! ## Properties -/

section Arithmetic

theorem prefixLength_zero (seqs : List Str) : prefixLength seqs 0 = 0 := by
  simp [prefixLength]

theorem prefixLength_succ (seqs : List Str) (i : Nat) (hi : i < seqs.length) :
    prefixLength seqs (i + 1) = prefixLength seqs i + (seqs[i]).length := by
  unfold prefixLength
  rw [List.map_take, List.map_take, List.sum_take_succ _ _ (by simpa using hi)]
  simp

theorem prefixLength_of_length_le (seqs : List Str) (i : Nat) (hi : seqs.length ≤ i) :
    prefixLength seqs i = totalLength seqs := by
  unfold prefixLength totalLength
  rw [List.take_of_length_le hi]

theorem prefixLength_mono (seqs : List Str) {i j : Nat} (hij : i ≤ j) :
    prefixLength seqs i ≤ prefixLength seqs j := by
  induction j with
  | zero =>
    have : i = 0 := by omega
    subst this
    exact le_refl _
  | succ j ih =>
    rcases Nat.lt_or_ge i (j + 1) with h | h
    · have h1 : prefixLength seqs i ≤ prefixLength seqs j := ih (by omega)
      rcases Nat.lt_or_ge j seqs.length with hj | hj
      · rw [prefixLength_succ seqs j hj]
        omega
      · rw [prefixLength_of_length_le seqs (j + 1) (by omega),
          ← prefixLength_of_length_le seqs j hj]
        exact h1
    · have : i = j + 1 := by omega
      subst this
      exact le_refl _

theorem prefixLength_le_total (seqs : List Str) (i : Nat) :
    prefixLength seqs i ≤ totalLength seqs := by
  rw [← prefixLength_of_length_le seqs (max i seqs.length) (le_max_right _ _)]
  exact prefixLength_mono seqs (le_max_left _ _)

end Arithmetic

end ADEPT

namespace ADEPT

section Loops

theorem take_succ_set {α : Type} (l : List α) (i : Nat) (x : α) (hi : i < l.length) :
    (l.set i x).take (i + 1) = l.take i ++ [x] := by
  induction l generalizing i with
  | nil => simp at hi
  | cons a t ih =>
    cases i with
    | zero => simp
    | succ i =>
      simp only [List.length_cons, Nat.add_lt_add_iff_right] at hi
      simp [ih i hi]

theorem intIncr_eq (i : Nat) (hi : i + 1 < 2 ^ 31) : intIncr i = .ok (i + 1) := by
  simp only [intIncr, hi, if_true]

theorem sizeToInt_eq (n : Nat) (hn : n < 2 ^ 31) : sizeToInt n = .ok n := by
  simp only [sizeToInt, hn, if_true]

theorem vecGet_eq {α : Type} (name : Arr) (v : List α) (i : Nat) (hi : i < v.length) :
    vecGet name v i = .ok v[i] := by
  simp [vecGet, List.getElem?_eq_getElem hi]

/-- The offset loop, started at round `i` with the cumulative length so far, overwrites the
cells from `i` on with the cumulative lengths. -/
theorem offsetLoop_eq (seqName offName : Arr) (seqs : List Str)
    (htot : totalLength seqs < 2 ^ 32) (hcount : seqs.length < 2 ^ 31) :
    ∀ (k i : Nat) (cells : List (Option Nat)), i + k = seqs.length →
      cells.length = seqs.length →
      offsetLoop seqName offName seqs k i (prefixLength seqs i) cells
        = .ok (cells.take i
            ++ (List.range' i k).map (fun j => some (prefixLength seqs (j + 1)))) := by
  intro k
  induction k with
  | zero =>
    intro i cells hik hlen
    simp [offsetLoop, List.take_of_length_le (show cells.length ≤ i by omega)]
  | succ k ih =>
    intro i cells hik hlen
    have hi : i < seqs.length := by omega
    have hstep : (prefixLength seqs i + (seqs[i]).length) % 2 ^ 32
        = prefixLength seqs (i + 1) := by
      rw [prefixLength_succ seqs i hi]
      apply Nat.mod_eq_of_lt
      have := prefixLength_le_total seqs (i + 1)
      rw [prefixLength_succ seqs i hi] at this
      omega
    have hset : bufSet offName cells i (prefixLength seqs (i + 1))
        = .ok (cells.set i (some (prefixLength seqs (i + 1)))) := by
      simp [bufSet, hlen, hi]
    simp only [offsetLoop, vecGet_eq seqName seqs i hi, hstep, hset,
      intIncr_eq i (by omega), bind, Except.bind]
    rw [ih (i + 1) _ (by omega) (by simpa using hlen),
      take_succ_set cells i _ (by omega)]
    simp [List.range'_succ]

theorem splice_length {α : Type} (B s : List α) (off len : Nat) (hs : s.length = len)
    (h : off + len ≤ B.length) :
    (B.take off ++ s ++ B.drop (off + len)).length = B.length := by
  simp only [List.length_append, List.length_take, List.length_drop, hs]
  omega

theorem splice_take {α : Type} (B s : List α) (off len : Nat) (hs : s.length = len)
    (h : off + len ≤ B.length) :
    (B.take off ++ s ++ B.drop (off + len)).take (off + len) = B.take off ++ s := by
  apply List.take_left'
  simp only [List.length_append, List.length_take, hs]
  omega

theorem splice_drop {α : Type} (B s : List α) (off len T : Nat) (hs : s.length = len)
    (h : off + len ≤ T) (hT : T ≤ B.length) :
    (B.take off ++ s ++ B.drop (off + len)).drop T = B.drop T := by
  have hl : (B.take off ++ s).length = off + len := by
    simp only [List.length_append, List.length_take, hs]
    omega
  rw [List.drop_append_eq_append_drop, List.drop_of_length_le (by omega), hl,
    List.drop_drop, List.nil_append]
  congr 1
  omega

theorem memcpy_eq (name : Arr) (cells : List (Option Char)) (off : Nat) (src : Str)
    (h : off + src.length ≤ cells.length) :
    memcpy name cells off src
      = .ok (cells.take off ++ src.map some ++ cells.drop (off + src.length)) := by
  simp [memcpy, h]

/-- The packing loop, started at round `i` with the cumulative lengths so far, lays the
remaining sequences of each side back to back from its cumulative length on. -/
theorem packLoop_eq (refs ques : List Str) (hlen : ques.length = refs.length)
    (hr : totalLength refs < 2 ^ 32) (hq : totalLength ques < 2 ^ 32)
    (hcount : refs.length < 2 ^ 31) :
    ∀ (k i : Nat) (bufA bufB : List (Option Char)), i + k = refs.length →
      totalLength refs ≤ bufA.length → totalLength ques ≤ bufB.length →
      packLoop refs ques k i (prefixLength refs i) (prefixLength ques i) bufA bufB
        = .ok (bufA.take (prefixLength refs i) ++ (refs.drop i).flatten.map some
                ++ bufA.drop (totalLength refs),
               bufB.take (prefixLength ques i) ++ (ques.drop i).flatten.map some
                ++ bufB.drop (totalLength ques)) := by
  intro k
  induction k with
  | zero =>
    intro i bufA bufB hik hA hB
    have h1 : prefixLength refs i = totalLength refs :=
      prefixLength_of_length_le refs i (by omega)
    have h2 : prefixLength ques i = totalLength ques :=
      prefixLength_of_length_le ques i (by omega)
    simp [packLoop, h1, h2, List.drop_of_length_le (show refs.length ≤ i by omega),
      List.drop_of_length_le (show ques.length ≤ i by omega)]
  | succ k ih =>
    intro i bufA bufB hik hA hB
    have hi : i < refs.length := by omega
    have hi' : i < ques.length := by omega
    have hsA := prefixLength_succ refs i hi
    have hsB := prefixLength_succ ques i hi'
    have hleA := prefixLength_le_total refs (i + 1)
    have hleB := prefixLength_le_total ques (i + 1)
    have hstepA : (prefixLength refs i + (refs[i]).length) % 2 ^ 32
        = prefixLength refs (i + 1) := by
      rw [hsA]; apply Nat.mod_eq_of_lt; omega
    have hstepB : (prefixLength ques i + (ques[i]).length) % 2 ^ 32
        = prefixLength ques (i + 1) := by
      rw [hsB]; apply Nat.mod_eq_of_lt; omega
    have hmA := memcpy_eq .ref_cstr bufA (prefixLength refs i) refs[i] (by omega)
    have hmB := memcpy_eq .que_cstr bufB (prefixLength ques i) ques[i] (by omega)
    simp only [packLoop, vecGet_eq .ref_seqs refs i hi, vecGet_eq .query_seqs ques i hi',
      hmA, hmB, hstepA, hstepB, intIncr_eq i (by omega), bind, Except.bind]
    rw [ih (i + 1) _ _ (by omega)
      (by rw [splice_length _ _ _ _ (List.length_map _ _) (by omega)]; exact hA)
      (by rw [splice_length _ _ _ _ (List.length_map _ _) (by omega)]; exact hB)]
    rw [splice_drop bufA _ _ _ _ (List.length_map _ _) (by omega) hA,
      splice_drop bufB _ _ _ _ (List.length_map _ _) (by omega) hB]
    rw [hsA, hsB, splice_take bufA _ _ _ (List.length_map _ _) (by omega),
      splice_take bufB _ _ _ (List.length_map _ _) (by omega)]
    rw [List.drop_eq_getElem_cons hi, List.drop_eq_getElem_cons hi']
    simp only [List.flatten_cons, List.map_append, List.append_assoc]

theorem offsetLoop_all (seqName offName : Arr) (seqs : List Str)
    (htot : totalLength seqs < 2 ^ 32) (hcount : seqs.length < 2 ^ 31) :
    offsetLoop seqName offName seqs seqs.length 0 0 (List.replicate seqs.length none)
      = .ok ((prefixSums seqs).map some) := by
  have h := offsetLoop_eq seqName offName seqs htot hcount seqs.length 0
    (List.replicate seqs.length none) (by omega) (by simp)
  rw [prefixLength_zero] at h
  rw [h]
  simp [prefixSums, List.range_eq_range']

theorem packLoop_all (refs ques : List Str) (hlen : ques.length = refs.length)
    (hr : totalLength refs < 2 ^ 32) (hq : totalLength ques < 2 ^ 32)
    (hcount : refs.length < 2 ^ 31) (capA capB : Nat)
    (hA : totalLength refs ≤ capA) (hB : totalLength ques ≤ capB) :
    packLoop refs ques refs.length 0 0 0 (List.replicate capA none) (List.replicate capB none)
      = .ok (packedCells refs capA, packedCells ques capB) := by
  have h := packLoop_eq refs ques hlen hr hq hcount refs.length 0 (List.replicate capA none)
    (List.replicate capB none) (by omega) (by simpa using hA) (by simpa using hB)
  rw [prefixLength_zero, prefixLength_zero] at h
  rw [h]
  simp [packedCells]

theorem length_prefixSums (seqs : List Str) : (prefixSums seqs).length = seqs.length := by
  simp [prefixSums]

theorem getElem?_prefixSums (seqs : List Str) (i : Nat) (hi : i < seqs.length) :
    (prefixSums seqs)[i]? = some (prefixLength seqs (i + 1)) := by
  simp [prefixSums, List.getElem?_map, List.getElem?_range hi]

theorem bufGet_last (name : Arr) (seqs : List Str) (hn : 1 ≤ seqs.length) :
    bufGet name ((prefixSums seqs).map some) ((seqs.length : Int) - 1)
      = .ok (totalLength seqs) := by
  have hidx : ((seqs.length : Int) - 1).toNat = seqs.length - 1 := by omega
  have hcell : ((prefixSums seqs).map some)[seqs.length - 1]?
      = some (some (totalLength seqs)) := by
    rw [List.getElem?_map, getElem?_prefixSums seqs _ (by omega),
      prefixLength_of_length_le seqs _ (by omega)]
    rfl
  have hrange : (0 : Int) ≤ (seqs.length : Int) - 1
      ∧ (seqs.length : Int) - 1 < (((prefixSums seqs).map some).length : Int) := by
    rw [List.length_map, length_prefixSums]
    omega
  simp only [bufGet, hrange, hidx, hcell, and_self, if_true]

theorem length_le_totalLength (seqs : List Str) :
    ∀ s ∈ seqs, s.length ≤ totalLength seqs := by
  induction seqs with
  | nil => simp
  | cons a t ih =>
    intro s hs
    simp only [totalLength, List.map_cons, List.sum_cons]
    rcases List.mem_cons.mp hs with h | h
    · subst h; omega
    · have := ih s h
      simp only [totalLength] at this
      omega

theorem totalLength_le_of_bound (seqs : List Str) (M : Nat) (hM : ∀ s ∈ seqs, s.length ≤ M) :
    totalLength seqs ≤ M * seqs.length := by
  induction seqs with
  | nil => simp [totalLength]
  | cons a t ih =>
    have h1 := hM a (List.mem_cons_self a t)
    have h2 := ih (fun s hs => hM s (List.mem_cons_of_mem a hs))
    simp only [totalLength, List.map_cons, List.sum_cons, List.length_cons] at h2 ⊢
    rw [Nat.mul_succ]
    omega

theorem foldl_maxLength_bound (v : List Str) (hv : ∀ s ∈ v, s.length < 2 ^ 32) :
    ∀ m : Nat, m ≤ v.foldl (fun maxLength str =>
        if maxLength < str.length then str.length % 2 ^ 32 else maxLength) m
      ∧ ∀ s ∈ v, s.length ≤ v.foldl (fun maxLength str =>
        if maxLength < str.length then str.length % 2 ^ 32 else maxLength) m := by
  induction v with
  | nil => intro m; simp
  | cons a t ih =>
    intro m
    have ha : a.length % 2 ^ 32 = a.length := Nat.mod_eq_of_lt (hv a (List.mem_cons_self a t))
    have iht := ih (fun s hs => hv s (List.mem_cons_of_mem a hs))
    simp only [List.foldl_cons, ha]
    by_cases hlt : m < a.length
    · simp only [hlt, if_true]
      have := iht a.length
      refine ⟨by omega, ?_⟩
      intro s hs
      rcases List.mem_cons.mp hs with h | h
      · subst h; exact this.1
      · exact this.2 s h
    · simp only [hlt, if_false]
      have := iht m
      refine ⟨this.1, ?_⟩
      intro s hs
      rcases List.mem_cons.mp hs with h | h
      · subst h; omega
      · exact this.2 s h

/-- The worst-case size `getMaxLength * count` is at least the packed length. -/
theorem totalLength_le_capacity (seqs : List Str) (htot : totalLength seqs < 2 ^ 32) :
    totalLength seqs ≤ getMaxLength seqs * seqs.length := by
  apply totalLength_le_of_bound
  have hv : ∀ s ∈ seqs, s.length < 2 ^ 32 := fun s hs =>
    Nat.lt_of_le_of_lt (length_le_totalLength seqs s hs) htot
  exact (foldl_maxLength_bound seqs hv 0).2

theorem cudaMemcpyAsync_same {α : Type} (dstName srcName : Arr) (src : List (Option α))
    (n elemSize : Nat) (he : 0 < elemSize) (hsrc : src.length = n) :
    cudaMemcpyAsync dstName srcName (List.replicate n none) src elemSize (n * elemSize)
      = .ok src := by
  have hdiv : n * elemSize / elemSize = n := Nat.mul_div_cancel n he
  simp [cudaMemcpyAsync, hdiv, hsrc, List.take_of_length_le (le_of_eq hsrc)]

theorem cudaMemcpyAsync_packed (dstName srcName : Arr) (seqs : List Str) (cap : Nat)
    (hcap : totalLength seqs ≤ cap) :
    cudaMemcpyAsync dstName srcName (List.replicate cap none) (packedCells seqs cap)
        sizeofChar (totalLength seqs * sizeofChar)
      = .ok (packedCells seqs cap) := by
  have hfl : seqs.flatten.length = totalLength seqs := by
    simp [totalLength, List.length_flatten]
  have hlen : (packedCells seqs cap).length = cap := by
    simp only [packedCells, List.length_append, List.length_map, List.length_replicate, hfl]
    omega
  have htake : (packedCells seqs cap).take (totalLength seqs) = seqs.flatten.map some := by
    unfold packedCells
    exact List.take_left' (by rw [List.length_map, hfl])
  have h1 : ¬ (packedCells seqs cap).length < totalLength seqs := by omega
  have h2 : ¬ cap < totalLength seqs := by omega
  simp only [cudaMemcpyAsync, sizeofChar, Nat.mul_one, Nat.div_one, h1, h2, if_false,
    List.length_replicate, htake, List.drop_replicate]
  rfl

/-- On a well-formed batch `initialize` succeeds and leaves the packed driver. -/
theorem initialize_eq (d : driver) (refs ques : List Str) (h : Heap)
    (hn : 1 ≤ refs.length) (hcount : refs.length < 2 ^ 31) (hlen : ques.length = refs.length)
    (hr : totalLength refs < 2 ^ 32) (hq : totalLength ques < 2 ^ 32) :
    driver.initialize d refs ques h
      = .ok (driver.packed d refs ques h, (driver.allocate d refs.length refs ques h).2) := by
  have hn' : 1 ≤ ques.length := by omega
  have e1 : (driver.allocate d refs.length refs ques h).1.total_alignments = refs.length := rfl
  have e2 : (driver.allocate d refs.length refs ques h).1.offset_ref.cells
      = List.replicate refs.length none := by
    show List.replicate (sizeofInt * refs.length / sizeofInt) none = _
    rw [Nat.mul_div_cancel_left _ (by decide : 0 < sizeofInt)]
  have e3 : (driver.allocate d refs.length refs ques h).1.offset_que.cells
      = List.replicate ques.length none := by
    show List.replicate (sizeofInt * refs.length / sizeofInt) none = _
    rw [Nat.mul_div_cancel_left _ (by decide : 0 < sizeofInt), hlen]
  have e4 : (driver.allocate d refs.length refs ques h).1.ref_cstr.cells
      = List.replicate (getMaxLength refs * refs.length) none := by
    show List.replicate (sizeofChar * getMaxLength refs * refs.length / sizeofChar) none = _
    simp [sizeofChar]
  have e5 : (driver.allocate d refs.length refs ques h).1.que_cstr.cells
      = List.replicate (getMaxLength ques * refs.length) none := by
    show List.replicate (sizeofChar * getMaxLength ques * refs.length / sizeofChar) none = _
    simp [sizeofChar]
  have e6 : (driver.allocate d refs.length refs ques h).1.offset_ref_gpu.cells
      = List.replicate refs.length none := by
    show List.replicate (refs.length * sizeofInt / sizeofInt) none = _
    rw [Nat.mul_div_cancel _ (by decide : 0 < sizeofInt)]
  have e7 : (driver.allocate d refs.length refs ques h).1.offset_query_gpu.cells
      = List.replicate refs.length none := by
    show List.replicate (refs.length * sizeofInt / sizeofInt) none = _
    rw [Nat.mul_div_cancel _ (by decide : 0 < sizeofInt)]
  have e8 : (driver.allocate d refs.length refs ques h).1.ref_cstr_d.cells
      = List.replicate (getMaxLength refs * refs.length) none := by
    show List.replicate (sizeofChar * getMaxLength refs * refs.length / sizeofChar) none = _
    simp [sizeofChar]
  have e9 : (driver.allocate d refs.length refs ques h).1.que_cstr_d.cells
      = List.replicate (getMaxLength ques * refs.length) none := by
    show List.replicate (sizeofChar * getMaxLength ques * refs.length / sizeofChar) none = _
    simp [sizeofChar]
  have capA := totalLength_le_capacity refs hr
  have capB : totalLength ques ≤ getMaxLength ques * refs.length := by
    rw [← hlen]; exact totalLength_le_capacity ques hq
  have l1 := offsetLoop_all .ref_seqs .offset_ref refs hr hcount
  have l2 := offsetLoop_all .query_seqs .offset_que ques hq (by omega)
  have g1 := bufGet_last .offset_ref refs hn
  have g2 := bufGet_last .offset_que ques hn'
  rw [hlen] at g2
  have l3 := packLoop_all refs ques hlen hr hq hcount _ _ capA capB
  have c1 := cudaMemcpyAsync_same .offset_ref_gpu .offset_ref ((prefixSums refs).map some)
    refs.length sizeofInt (by decide) (by simp [length_prefixSums])
  have c2 := cudaMemcpyAsync_same .offset_query_gpu .offset_que ((prefixSums ques).map some)
    refs.length sizeofInt (by decide) (by simp [length_prefixSums, hlen])
  have c3 := cudaMemcpyAsync_packed .ref_cstr_d .ref_cstr refs _ capA
  have c4 := cudaMemcpyAsync_packed .que_cstr_d .que_cstr ques _ capB
  simp only [ driver.initialize, sizeToInt_eq refs.length hcount, driver.mem_cpy_htd, e1,
    e2, e3, e4, e5, e6, e7, e8, e9, l1,
    l2, g1, g2, l3, c1, c2, c3, c4, bind, Except.bind]
  rfl

theorem length_hugeBatch : hugeBatch.length = 2 ^ 31 := by
  rw [hugeBatch, List.length_replicate]

theorem getElem_hugeBatch (i : Nat) (hi : i < hugeBatch.length) : hugeBatch[i] = [] := by
  simp only [hugeBatch, List.getElem_replicate]

theorem totalLength_hugeBatch : (hugeBatch.map List.length).sum = 0 := by
  rw [hugeBatch, List.map_replicate, List.sum_replicate, List.length_nil, smul_zero]

/-- A batch whose size does not fit `total_alignments` stops `initialize` at line 46. -/
theorem initialize_size_too_large (d : driver) (refs ques : List Str) (h : Heap)
    (hbig : 2 ^ 31 ≤ refs.length) :
    driver.initialize d refs ques h = .error (.sizeTooLarge refs.length) := by
  have hnot : ¬ refs.length < 2 ^ 31 := by omega
  simp only [ driver.initialize, sizeToInt, hnot, if_false, bind, Except.bind]

/-- The offset loop over `2^31` empty sequences stores `2^31` offsets and then increments
its `int` counter past `2^31 - 1`. -/
theorem offsetLoop_overflow (seqName offName : Arr) (seqs : List Str)
    (hsize : seqs.length = 2 ^ 31) (hempty : ∀ (i : Nat) (hi : i < seqs.length), seqs[i] = []) :
    ∀ (k i : Nat) (cells : List (Option Nat)), i + k = 2 ^ 31 → 1 ≤ k →
      cells.length = 2 ^ 31 →
      offsetLoop seqName offName seqs k i 0 cells = .error (.intOverflow (2 ^ 31 - 1)) := by
  intro k
  induction k with
  | zero => intro i cells _ hk _; omega
  | succ k ih =>
    intro i cells hik _ hlen
    have hi : i < seqs.length := by omega
    have hset : bufSet offName cells i 0 = .ok (cells.set i (some 0)) := by
      simp only [bufSet, hlen, show i < 2 ^ 31 by omega, if_true]
    have hsum : (0 + ([] : Str).length) % 2 ^ 32 = 0 := by
      rw [List.length_nil, Nat.add_zero, Nat.zero_mod]
    simp only [offsetLoop, vecGet_eq seqName seqs i hi, hempty i hi, hsum, hset, bind,
      Except.bind]
    rcases Nat.lt_or_ge (i + 1) (2 ^ 31) with hlt | hge
    · simp only [intIncr_eq i hlt]
      exact ih (i + 1) _ (by omega) (by omega) (by simpa using hlen)
    · have hnot : ¬ i + 1 < 2 ^ 31 := by omega
      have hinc : intIncr i = .error (.intOverflow (2 ^ 31 - 1)) := by
        rw [intIncr, if_neg hnot]
        congr 2
        omega
      simp only [hinc]

/-- The packing loop over `2^31` pairs of empty sequences copies nothing `2^31` times and
then increments its `int` counter past `2^31 - 1`. -/
theorem packLoop_overflow (refs ques : List Str)
    (hsizeR : refs.length = 2 ^ 31) (hsizeQ : ques.length = 2 ^ 31)
    (hemptyR : ∀ (i : Nat) (hi : i < refs.length), refs[i] = [])
    (hemptyQ : ∀ (i : Nat) (hi : i < ques.length), ques[i] = []) :
    ∀ (k i : Nat), i + k = 2 ^ 31 → 1 ≤ k →
      packLoop refs ques k i 0 0 [] [] = .error (.intOverflow (2 ^ 31 - 1)) := by
  intro k
  induction k with
  | zero => intro i _ hk; omega
  | succ k ih =>
    intro i hik _
    have hi : i < refs.length := by omega
    have hi' : i < ques.length := by omega
    have hsum : (0 + ([] : Str).length) % 2 ^ 32 = 0 := by
      rw [List.length_nil, Nat.add_zero, Nat.zero_mod]
    have hmA : memcpy .ref_cstr [] 0 [] = .ok [] := rfl
    have hmB : memcpy .que_cstr [] 0 [] = .ok [] := rfl
    simp only [packLoop, vecGet_eq .ref_seqs refs i hi, vecGet_eq .query_seqs ques i hi',
      hemptyR i hi, hemptyQ i hi', hsum, hmA, hmB, bind, Except.bind]
    rcases Nat.lt_or_ge (i + 1) (2 ^ 31) with hlt | hge
    · simp only [intIncr_eq i hlt]
      exact ih (i + 1) (by omega) (by omega)
    · have hnot : ¬ i + 1 < 2 ^ 31 := by omega
      have hinc : intIncr i = .error (.intOverflow (2 ^ 31 - 1)) := by
        rw [intIncr, if_neg hnot]
        congr 2
        omega
      simp only [hinc]

/-- Run over `2^31` empty sequences, each loop of `initialize` ends in the overflow of its
counter `int i`. -/
theorem loops_overflow_hugeBatch :
    offsetLoop .ref_seqs .offset_ref hugeBatch hugeBatch.length 0 0
        (List.replicate hugeBatch.length none) = .error (.intOverflow (2 ^ 31 - 1))
      ∧ offsetLoop .query_seqs .offset_que hugeBatch hugeBatch.length 0 0
          (List.replicate hugeBatch.length none) = .error (.intOverflow (2 ^ 31 - 1))
      ∧ packLoop hugeBatch hugeBatch hugeBatch.length 0 0 0 [] []
          = .error (.intOverflow (2 ^ 31 - 1)) := by
  have hpos : (1 : Nat) ≤ 2 ^ 31 := by decide
  have hL := length_hugeBatch
  refine ⟨?_, ?_, ?_⟩
  · exact offsetLoop_overflow .ref_seqs .offset_ref hugeBatch hL getElem_hugeBatch
      hugeBatch.length 0 _ (by omega) (by omega) (by rw [List.length_replicate, hL])
  · exact offsetLoop_overflow .query_seqs .offset_que hugeBatch hL getElem_hugeBatch
      hugeBatch.length 0 _ (by omega) (by omega) (by rw [List.length_replicate, hL])
  · exact packLoop_overflow hugeBatch hugeBatch hL hL getElem_hugeBatch getElem_hugeBatch
      hugeBatch.length 0 (by omega) (by omega)

/-- A batch of `2^31` empty sequences per side meets every condition but the job count,
and `initialize` stops at the batch size. -/
theorem initialize_hugeBatch (d : driver) (h : Heap) :
    1 ≤ hugeBatch.length ∧ (hugeBatch.map List.length).sum < 2 ^ 32
      ∧ driver.initialize d hugeBatch hugeBatch h = .error (.sizeTooLarge (2 ^ 31)) := by
  have hL := length_hugeBatch
  refine ⟨by omega, ?_, ?_⟩
  · rw [totalLength_hugeBatch]
    decide
  · have := initialize_size_too_large d hugeBatch hugeBatch h (by omega)
    rw [hL] at this
    exact this

end Loops

end ADEPT

namespace ADEPT

section Packing

theorem readCells_map_some (s : Str) : readCells (s.map some) = some s := by
  induction s with
  | nil => rfl
  | cons c t ih => simp [readCells, ih]

theorem offsetTableOf_prefixSums (seqs : List Str) (hn : 1 ≤ seqs.length) :
    OffsetTableOf ((prefixSums seqs).map some) seqs (totalLength seqs) := by
  have hget : ∀ i, i < seqs.length →
      ((prefixSums seqs).map some)[i]? = some (some (prefixLength seqs (i + 1))) := by
    intro i hi
    rw [List.getElem?_map, getElem?_prefixSums seqs i hi]
    rfl
  refine ⟨by simp [length_prefixSums], hget, ?_, ?_, rfl⟩
  · intro i j x y hij hx hy
    have hj : j < seqs.length := by
      have := (List.getElem?_eq_some_iff.mp hy).1
      simpa [length_prefixSums] using this
    rw [hget i (by omega)] at hx
    rw [hget j hj] at hy
    have hx' : prefixLength seqs (i + 1) = x := by simpa using hx
    have hy' : prefixLength seqs (j + 1) = y := by simpa using hy
    rw [← hx', ← hy']
    exact prefixLength_mono seqs (by omega)
  · rw [hget _ (by omega), prefixLength_of_length_le seqs _ (by omega)]

theorem unpack_packed (seqs : List Str) (cap i : Nat) (hcap : totalLength seqs ≤ cap)
    (hi : i < seqs.length) :
    unpack (packedCells seqs cap) ((prefixSums seqs).map some) i = some seqs[i] := by
  have hlo : offsetBefore ((prefixSums seqs).map some) i = some (prefixLength seqs i) := by
    unfold offsetBefore
    rcases Nat.eq_zero_or_pos i with h0 | h0
    · subst h0; simp [prefixLength_zero]
    · have h1 : i - 1 + 1 = i := by omega
      rw [if_neg (by omega), List.getElem?_map, getElem?_prefixSums seqs _ (by omega), h1]
      rfl
  have hhi : (((prefixSums seqs).map some)[i]?).join = some (prefixLength seqs (i + 1)) := by
    rw [List.getElem?_map, getElem?_prefixSums seqs i hi]
    rfl
  have hfl : seqs.flatten.length = totalLength seqs := by
    simp [totalLength, List.length_flatten]
  have hle := prefixLength_le_total seqs (i + 1)
  have hmono : prefixLength seqs i ≤ prefixLength seqs (i + 1) :=
    prefixLength_mono seqs (by omega)
  have hlen : (packedCells seqs cap).length = cap := by
    simp only [packedCells, List.length_append, List.length_map, List.length_replicate, hfl]
    omega
  have hslice : ((packedCells seqs cap).drop (prefixLength seqs i)).take
      (prefixLength seqs (i + 1) - prefixLength seqs i) = (seqs[i]).map some := by
    have hsum : prefixLength seqs i + (prefixLength seqs (i + 1) - prefixLength seqs i)
        = prefixLength seqs (i + 1) := by omega
    rw [List.take_drop, hsum]
    unfold packedCells
    rw [List.take_append_of_le_length (by rw [List.length_map, hfl]; exact hle),
      ← List.map_take, ← List.map_drop]
    congr 1
    have := List.drop_take_succ_flatten_eq_getElem seqs i hi
    rw [← List.map_take, ← List.map_take] at this
    exact this
  simp only [unpack, hlo, hhi, hlen]
  rw [if_pos ⟨hmono, by omega⟩, hslice, readCells_map_some]

end Packing

/-- C1, as stated, fails: a batch of `2^31` empty references and `2^31` empty queries has
at least one job, as many queries as references and total length 0 per side, but its size
does not fit the 32-bit `int` member `total_alignments`, where `initialize` stops without
building a table; and each offset loop, run over the `2^31` sequences, ends in the overflow
of its counter `int i`. -/
theorem offset_tables_need_int_batch_size :
    1 ≤ hugeBatch.length ∧ hugeBatch.length = hugeBatch.length
      ∧ (hugeBatch.map List.length).sum < 2 ^ 32
      ∧ driver.initialize driver.created hugeBatch hugeBatch Heap.empty
          = .error (.sizeTooLarge (2 ^ 31))
      ∧ offsetLoop .ref_seqs .offset_ref hugeBatch hugeBatch.length 0 0
          (List.replicate hugeBatch.length none) = .error (.intOverflow (2 ^ 31 - 1))
      ∧ offsetLoop .query_seqs .offset_que hugeBatch hugeBatch.length 0 0
          (List.replicate hugeBatch.length none) = .error (.intOverflow (2 ^ 31 - 1)) :=
  ⟨(initialize_hugeBatch driver.created Heap.empty).1, rfl,
    (initialize_hugeBatch driver.created Heap.empty).2.1,
    (initialize_hugeBatch driver.created Heap.empty).2.2,
    loops_overflow_hugeBatch.1, loops_overflow_hugeBatch.2.1⟩

/-- C1, amended: on a batch with at least one and fewer than `2^31` jobs, as many queries
as references and less than `2^32` characters per side, `initialize` succeeds and
`offset_ref` is the table of prefix sums of the reference lengths (entry `i` the total
length of references `0..i`), is non-decreasing, and ends in `total_length_ref`, the sum of
all reference lengths; the same for `offset_que` and `total_length_que` over the
queries. -/
theorem offset_tables_are_prefix_sums (d : driver) (ref_seqs query_seqs : List Str) (h : Heap)
    (hn : 1 ≤ ref_seqs.length) (hcount : ref_seqs.length < 2 ^ 31)
    (hlen : query_seqs.length = ref_seqs.length)
    (hr : (ref_seqs.map List.length).sum < 2 ^ 32)
    (hq : (query_seqs.map List.length).sum < 2 ^ 32) :
    ∃ d' h', driver.initialize d ref_seqs query_seqs h = .ok (d', h')
      ∧ OffsetTableOf d'.offset_ref.cells ref_seqs d'.total_length_ref
      ∧ OffsetTableOf d'.offset_que.cells query_seqs d'.total_length_que :=
  ⟨_, _, initialize_eq d ref_seqs query_seqs h hn hcount hlen hr hq,
    offsetTableOf_prefixSums ref_seqs hn,
    offsetTableOf_prefixSums query_seqs (by omega)⟩

/-- The two-job scenario satisfies the hypotheses of the amended C1, so its offset tables
are the prefix sums. -/
theorem offset_tables_scenario :
    ∃ d' h', driver.initialize driver.created scenarioRefs scenarioQueries Heap.empty
        = .ok (d', h')
      ∧ OffsetTableOf d'.offset_ref.cells scenarioRefs d'.total_length_ref
      ∧ OffsetTableOf d'.offset_que.cells scenarioQueries d'.total_length_que :=
  offset_tables_are_prefix_sums driver.created scenarioRefs scenarioQueries Heap.empty
    (by decide) (by decide) (by decide) (by decide) (by decide)

/-- C2, as stated, fails: a batch of `2^31` empty references and `2^31` empty queries has
at least one job, as many queries as references and total length 0 per side, but its size
does not fit the 32-bit `int` member `total_alignments`, where `initialize` stops without
packing anything; and the packing loop, run over the `2^31` pairs, ends in the overflow of
its counter `int i`. -/
theorem packing_needs_int_batch_size :
    1 ≤ hugeBatch.length ∧ hugeBatch.length = hugeBatch.length
      ∧ (hugeBatch.map List.length).sum < 2 ^ 32
      ∧ driver.initialize driver.created hugeBatch hugeBatch Heap.empty
          = .error (.sizeTooLarge (2 ^ 31))
      ∧ packLoop hugeBatch hugeBatch hugeBatch.length 0 0 0 [] []
          = .error (.intOverflow (2 ^ 31 - 1)) :=
  ⟨(initialize_hugeBatch driver.created Heap.empty).1, rfl,
    (initialize_hugeBatch driver.created Heap.empty).2.1,
    (initialize_hugeBatch driver.created Heap.empty).2.2,
    loops_overflow_hugeBatch.2.2⟩

/-- C2, amended: on a batch with at least one and fewer than `2^31` jobs, as many queries
as references and less than `2^32` characters per side, `initialize` succeeds and
unpacking gives back every sequence:
for each job `i` the cells `[offset_ref[i-1], offset_ref[i])` of `ref_cstr` (with
`offset_ref[-1] = 0`) hold exactly reference `i`, and the cells
`[offset_que[i-1], offset_que[i])` of `que_cstr` hold exactly query `i`; sequences of
length zero are allowed. -/
theorem unpack_returns_every_sequence (d : driver) (ref_seqs query_seqs : List Str) (h : Heap)
    (hn : 1 ≤ ref_seqs.length) (hcount : ref_seqs.length < 2 ^ 31)
    (hlen : query_seqs.length = ref_seqs.length)
    (hr : (ref_seqs.map List.length).sum < 2 ^ 32)
    (hq : (query_seqs.map List.length).sum < 2 ^ 32) :
    ∃ d' h', driver.initialize d ref_seqs query_seqs h = .ok (d', h')
      ∧ ∀ i, i < ref_seqs.length →
          unpack d'.ref_cstr.cells d'.offset_ref.cells i = ref_seqs[i]?
          ∧ unpack d'.que_cstr.cells d'.offset_que.cells i = query_seqs[i]? := by
  refine ⟨_, _, initialize_eq d ref_seqs query_seqs h hn hcount hlen hr hq, ?_⟩
  intro i hi
  have hi' : i < query_seqs.length := by omega
  rw [List.getElem?_eq_getElem hi, List.getElem?_eq_getElem hi']
  exact ⟨unpack_packed ref_seqs _ i (totalLength_le_capacity ref_seqs hr) hi,
    unpack_packed query_seqs _ i
      (by rw [← hlen]; exact totalLength_le_capacity query_seqs hq) hi'⟩

/-- A batch with an empty reference and an empty query satisfies the hypotheses of the
amended C2. -/
theorem unpack_with_empty_sequences :
    ∃ d' h', driver.initialize driver.created [['A', 'C'], [], ['G']] [[], ['T', 'T'], []]
        Heap.empty = .ok (d', h')
      ∧ ∀ i, i < [['A', 'C'], [], ['G']].length →
          unpack d'.ref_cstr.cells d'.offset_ref.cells i = [['A', 'C'], [], ['G']][i]?
          ∧ unpack d'.que_cstr.cells d'.offset_que.cells i = [[], ['T', 'T'], []][i]? :=
  unpack_returns_every_sequence driver.created [['A', 'C'], [], ['G']] [[], ['T', 'T'], []]
    Heap.empty (by decide) (by decide) (by decide) (by decide) (by decide)

section Launch

theorem minSize_eq_min (mr mq : Nat) : minSize mr mq = min mr mq := by
  unfold minSize
  split <;> omega

theorem totShmem_eq (mr mq : Nat) : totShmem mr mq = (6 * (min mr mq + 1)) % 2 ^ 32 := by
  unfold totShmem sizeofShort
  rw [minSize_eq_min]
  generalize min mr mq = m
  norm_num
  omega

theorem totShmem_mod_four (mr mq : Nat) :
    totShmem mr mq % 4 = 0 ∨ totShmem mr mq % 4 = 2 := by
  rw [totShmem_eq]
  generalize min mr mq = m
  norm_num
  omega

theorem ShmemBytes_eq (mr mq : Nat) :
    ShmemBytes mr mq = (totShmem mr mq + (8 - totShmem mr mq % 4)) % 2 ^ 32 := by
  unfold ShmemBytes alignmentPad
  have := totShmem_mod_four mr mq
  generalize totShmem mr mq = t at this ⊢
  norm_num
  rcases this with h | h <;> simp [h]

theorem ShmemBytes_facts (m : Nat) (hlt : m < 2 ^ 32) :
    ((6 * (m + 1)) % 2 ^ 32 + (8 - (6 * (m + 1)) % 2 ^ 32 % 4)) % 2 ^ 32 % 4 = 0
      ∧ (6 * (m + 1) ≤ ((6 * (m + 1)) % 2 ^ 32 + (8 - (6 * (m + 1)) % 2 ^ 32 % 4)) % 2 ^ 32
          ↔ 6 * (m + 1) + 8 < 2 ^ 32) := by
  have h4 : (6 * (m + 1)) % 2 ^ 32 % 4 = 0 ∨ (6 * (m + 1)) % 2 ^ 32 % 4 = 2 := by
    norm_num
    omega
  rcases h4 with h | h
  · rw [h]
    norm_num at hlt ⊢
    omega
  · rw [h]
    norm_num at hlt ⊢
    omega

theorem ShmemBytes_no_wrap (m : Nat) (hno : 6 * (m + 1) + 8 < 2 ^ 32) :
    ((6 * (m + 1)) % 2 ^ 32 + (8 - (6 * (m + 1)) % 2 ^ 32 % 4)) % 2 ^ 32
      = 6 * (m + 1) + (8 - 6 * (m + 1) % 4) := by
  have h1 : (6 * (m + 1)) % 2 ^ 32 = 6 * (m + 1) := Nat.mod_eq_of_lt (by omega)
  rw [h1]
  apply Nat.mod_eq_of_lt
  omega

end Launch

/-- C3, as stated, fails: with both maxima `715827881` the raw requirement
`3 * (minSize + 1) * sizeof(short)` is `4294967292`, which `totShmem` still holds, but the
`unsigned` sum with the padding wraps and `ShmemBytes` is `4`. -/
theorem shmem_bytes_wrap_below_requirement :
    715827881 < 2 ^ 32
      ∧ 3 * (min 715827881 715827881 + 1) * sizeofShort = 4294967292
      ∧ totShmem 715827881 715827881 = 4294967292
      ∧ ShmemBytes 715827881 715827881 = 4
      ∧ ¬ (3 * (min 715827881 715827881 + 1) * sizeofShort
            ≤ ShmemBytes 715827881 715827881) := by
  decide

/-- C3, amended: for all 32-bit `max_ref_size` and `max_que_size` the shared-memory size
`ShmemBytes` is a multiple of 4, and it is at least the raw requirement
`3 * (min(max_ref_size, max_que_size) + 1) * sizeof(short)` exactly when that requirement
plus 8 bytes of padding stays below `2^32`, that is, when the `unsigned` arithmetic does
not wrap. -/
theorem shmem_bytes_multiple_of_four (max_ref_size max_que_size : Nat)
    (hr : max_ref_size < 2 ^ 32) (hq : max_que_size < 2 ^ 32) :
    ShmemBytes max_ref_size max_que_size % 4 = 0
      ∧ (3 * (min max_ref_size max_que_size + 1) * sizeofShort
            ≤ ShmemBytes max_ref_size max_que_size
          ↔ 3 * (min max_ref_size max_que_size + 1) * sizeofShort + 8 < 2 ^ 32) := by
  have hlt : min max_ref_size max_que_size < 2 ^ 32 := by omega
  have hraw : 3 * (min max_ref_size max_que_size + 1) * sizeofShort
      = 6 * (min max_ref_size max_que_size + 1) := by
    simp only [sizeofShort]; omega
  rw [ShmemBytes_eq, totShmem_eq, hraw]
  exact ShmemBytes_facts _ hlt

/-- The launch for maxima 1200 and 600 meets the hypotheses of the amended C3. -/
theorem shmem_bytes_example :
    ShmemBytes 1200 600 % 4 = 0
      ∧ (3 * (min 1200 600 + 1) * sizeofShort ≤ ShmemBytes 1200 600
          ↔ 3 * (min 1200 600 + 1) * sizeofShort + 8 < 2 ^ 32) :=
  shmem_bytes_multiple_of_four 1200 600 (by decide) (by decide)

/-- C4: `kernel_launch` sets the extended dynamic shared-memory attribute exactly when
`ShmemBytes` exceeds 48000 and otherwise launches without setting it; when the `unsigned`
arithmetic does not wrap this is exactly when `minSize = min(max_ref_size, max_que_size)`
is at least 7999: `minSize = 7998` gives `ShmemBytes = 48000` and no opt-in,
`minSize = 7999` gives `48008` and the opt-in. -/
theorem extended_shmem_opt_in (d : driver) :
    d.kernel_launch.sharedMem = ShmemBytes d.max_ref_size d.max_que_size
      ∧ (48000 < d.kernel_launch.sharedMem →
          d.kernel_launch.maxDynamicSharedMemorySize = some d.kernel_launch.sharedMem)
      ∧ (¬ 48000 < d.kernel_launch.sharedMem →
          d.kernel_launch.maxDynamicSharedMemorySize = none)
      ∧ (3 * (min d.max_ref_size d.max_que_size + 1) * sizeofShort + 8 < 2 ^ 32 →
          (48000 < d.kernel_launch.sharedMem ↔ 7999 ≤ min d.max_ref_size d.max_que_size)
          ∧ (min d.max_ref_size d.max_que_size = 7998 →
              d.kernel_launch.sharedMem = 48000
                ∧ d.kernel_launch.maxDynamicSharedMemorySize = none)
          ∧ (min d.max_ref_size d.max_que_size = 7999 →
              d.kernel_launch.sharedMem = 48008
                ∧ d.kernel_launch.maxDynamicSharedMemorySize = some 48008)) := by
  have hshared : d.kernel_launch.sharedMem = ShmemBytes d.max_ref_size d.max_que_size := rfl
  have hattr : d.kernel_launch.maxDynamicSharedMemorySize
      = if ShmemBytes d.max_ref_size d.max_que_size > 48000 then
          some (ShmemBytes d.max_ref_size d.max_que_size) else none := rfl
  rw [hshared, hattr]
  refine ⟨rfl, fun h => by rw [if_pos h], fun h => by rw [if_neg h], ?_⟩
  intro hno
  have hno' : 6 * (min d.max_ref_size d.max_que_size + 1) + 8 < 2 ^ 32 := by
    simp only [sizeofShort] at hno; omega
  have hval : ShmemBytes d.max_ref_size d.max_que_size
      = 6 * (min d.max_ref_size d.max_que_size + 1)
        + (8 - 6 * (min d.max_ref_size d.max_que_size + 1) % 4) := by
    rw [ShmemBytes_eq, totShmem_eq]
    exact ShmemBytes_no_wrap _ hno'
  rw [hval]
  generalize min d.max_ref_size d.max_que_size = m
  refine ⟨by omega, ?_, ?_⟩
  · intro h; subst h; decide
  · intro h; subst h; decide

/-- A driver with maxima 9000 and 7999 meets the no-wrap hypothesis of C4 and opts in. -/
theorem extended_shmem_opt_in_at_7999 :
    (driver.kernel_launch
        { driver.created with max_ref_size := 9000, max_que_size := 7999 }
      ).maxDynamicSharedMemorySize = some 48008 :=
  (((extended_shmem_opt_in
      { driver.created with max_ref_size := 9000, max_que_size := 7999 }).2.2.2
      (by decide)).2.2 (by decide)).2

section Lifecycle

/-- After `initialize` on an empty heap the released list is empty and the 18 blocks are,
in order: the four pinned input buffers, the five pinned result buffers, and nine device
buffers, each of the worst-case or per-job size. -/
theorem allocate_heap (d : driver) (refs ques : List Str) :
    (driver.allocate d refs.length refs ques Heap.empty).2
      = ⟨[⟨.host, sizeofInt * refs.length⟩, ⟨.host, sizeofInt * refs.length⟩,
          ⟨.host, sizeofChar * getMaxLength refs * refs.length⟩,
          ⟨.host, sizeofChar * getMaxLength ques * refs.length⟩,
          ⟨.host, sizeofShort * refs.length⟩, ⟨.host, sizeofShort * refs.length⟩,
          ⟨.host, sizeofShort * refs.length⟩, ⟨.host, sizeofShort * refs.length⟩,
          ⟨.host, sizeofShort * refs.length⟩,
          ⟨.device, sizeofChar * getMaxLength refs * refs.length⟩,
          ⟨.device, sizeofChar * getMaxLength ques * refs.length⟩,
          ⟨.device, refs.length * sizeofInt⟩, ⟨.device, refs.length * sizeofInt⟩,
          ⟨.device, refs.length * sizeofShort⟩, ⟨.device, refs.length * sizeofShort⟩,
          ⟨.device, refs.length * sizeofShort⟩, ⟨.device, refs.length * sizeofShort⟩,
          ⟨.device, refs.length * sizeofShort⟩], []⟩ := by
  simp [driver.allocate, allocate_gpu_mem, initialize_alignments, cudaMalloc, cudaMallocHost,
    Heap.alloc, Heap.empty]

/-- The handles held by the driver after `initialize` on an empty heap. -/
theorem packed_handles (d : driver) (refs ques : List Str) :
    (driver.packed d refs ques Heap.empty).offset_ref.handle = 0
      ∧ (driver.packed d refs ques Heap.empty).offset_que.handle = 1
      ∧ (driver.packed d refs ques Heap.empty).ref_cstr.handle = 2
      ∧ (driver.packed d refs ques Heap.empty).que_cstr.handle = 3
      ∧ (driver.packed d refs ques Heap.empty).ref_begin = 4
      ∧ (driver.packed d refs ques Heap.empty).ref_end = 5
      ∧ (driver.packed d refs ques Heap.empty).query_begin = 6
      ∧ (driver.packed d refs ques Heap.empty).query_end = 7
      ∧ (driver.packed d refs ques Heap.empty).top_scores = 8
      ∧ (driver.packed d refs ques Heap.empty).ref_cstr_d.handle = 9
      ∧ (driver.packed d refs ques Heap.empty).que_cstr_d.handle = 10
      ∧ (driver.packed d refs ques Heap.empty).offset_query_gpu.handle = 11
      ∧ (driver.packed d refs ques Heap.empty).offset_ref_gpu.handle = 12
      ∧ (driver.packed d refs ques Heap.empty).ref_start_gpu = 13
      ∧ (driver.packed d refs ques Heap.empty).ref_end_gpu = 14
      ∧ (driver.packed d refs ques Heap.empty).query_end_gpu = 15
      ∧ (driver.packed d refs ques Heap.empty).query_start_gpu = 16
      ∧ (driver.packed d refs ques Heap.empty).scores_gpu = 17 := by
  simp [driver.packed, driver.allocate, allocate_gpu_mem, initialize_alignments, cudaMalloc,
    cudaMallocHost, Heap.alloc, Heap.empty]

/-- On a well-formed batch the session ends with every buffer but `scores_gpu` released
once, in the order of `free_results`, `cleanup` and `dealloc_gpu_mem`. -/
theorem runSession_eq (refs ques : List Str)
    (hn : 1 ≤ refs.length) (hcount : refs.length < 2 ^ 31)
    (hlen : ques.length = refs.length)
    (hr : totalLength refs < 2 ^ 32) (hq : totalLength ques < 2 ^ 32) :
    runSession refs ques
      = .ok (driver.packed driver.created refs ques Heap.empty,
          ⟨(driver.allocate driver.created refs.length refs ques Heap.empty).2.blocks,
            [4, 5, 6, 7, 8, 0, 1, 2, 3, 12, 11, 13, 14, 16, 15, 9, 10]⟩) := by
  obtain ⟨h0, h1, h2, h3, h4, h5, h6, h7, h8, h9, h10, h11, h12, h13, h14, h15, h16, _⟩ :=
    packed_handles driver.created refs ques
  simp [runSession, initialize_eq driver.created refs ques Heap.empty hn hcount hlen hr hq,
    allocate_heap, bind, Except.bind, driver.free_results, driver.cleanup,
    driver.dealloc_gpu_mem, cudaFreeHost, cudaFree, h0, h1, h2, h3, h4, h5, h6, h7, h8, h9,
    h10, h11, h12, h13, h14, h15, h16, Heap.release, Heap.isLive]

/-- On a well-formed batch `initialize` followed by one `cleanup` releases the four pinned
input buffers and eight device buffers, in the order of `cleanup` and `dealloc_gpu_mem`. -/
theorem initializeThenCleanup_eq (refs ques : List Str)
    (hn : 1 ≤ refs.length) (hcount : refs.length < 2 ^ 31)
    (hlen : ques.length = refs.length)
    (hr : totalLength refs < 2 ^ 32) (hq : totalLength ques < 2 ^ 32) :
    initializeThenCleanup refs ques
      = .ok (driver.packed driver.created refs ques Heap.empty,
          ⟨(driver.allocate driver.created refs.length refs ques Heap.empty).2.blocks,
            [0, 1, 2, 3, 12, 11, 13, 14, 16, 15, 9, 10]⟩) := by
  obtain ⟨h0, h1, h2, h3, h4, h5, h6, h7, h8, h9, h10, h11, h12, h13, h14, h15, h16, _⟩ :=
    packed_handles driver.created refs ques
  simp [initializeThenCleanup,
    initialize_eq driver.created refs ques Heap.empty hn hcount hlen hr hq,
    allocate_heap, bind, Except.bind, driver.cleanup,
    driver.dealloc_gpu_mem, cudaFreeHost, cudaFree, h0, h1, h2, h3, h9,
    h10, h11, h12, h13, h14, h15, h16, Heap.release, Heap.isLive]

theorem getElem?_append_add {α : Type} (xs ys : List α) (k : Nat) :
    (xs ++ ys)[xs.length + k]? = ys[k]? := by
  rw [List.getElem?_append_right (by omega)]
  congr 1
  omega

/-- The heap after `initialize` on any heap: 18 new blocks, nothing released. -/
theorem allocate_heap_append (d : driver) (refs ques : List Str) (h : Heap) :
    (driver.allocate d refs.length refs ques h).2
      = ⟨h.blocks ++ (driver.allocate d refs.length refs ques Heap.empty).2.blocks, h.released⟩ := by
  rw [allocate_heap]
  simp [driver.allocate, allocate_gpu_mem, initialize_alignments, cudaMalloc, cudaMallocHost,
    Heap.alloc]

/-- The handles of the two device character buffers after `initialize` on any heap. -/
theorem packed_cstr_d_handles (d : driver) (refs ques : List Str) (h : Heap) :
    (driver.packed d refs ques h).ref_cstr_d.handle = h.blocks.length + 9
      ∧ (driver.packed d refs ques h).que_cstr_d.handle = h.blocks.length + 10 := by
  simp [driver.packed, driver.allocate, allocate_gpu_mem, initialize_alignments, cudaMalloc,
    cudaMallocHost, Heap.alloc]

/-- The blocks behind the two device character buffers have the worst-case sizes. -/
theorem packed_cstr_d_blocks (d : driver) (refs ques : List Str) (h : Heap) :
    (driver.allocate d refs.length refs ques h).2.blocks[(driver.packed d refs ques h).ref_cstr_d.handle]?
        = some ⟨.device, sizeofChar * getMaxLength refs * refs.length⟩
      ∧ (driver.allocate d refs.length refs ques h).2.blocks[
          (driver.packed d refs ques h).que_cstr_d.handle]?
        = some ⟨.device, sizeofChar * getMaxLength ques * refs.length⟩ := by
  rw [(packed_cstr_d_handles d refs ques h).1, (packed_cstr_d_handles d refs ques h).2,
    allocate_heap_append, allocate_heap]
  simp only [getElem?_append_add]
  exact ⟨rfl, rfl⟩

end Lifecycle

/-- C5 fails on the code: in the two-job scenario, after `initialize`, `free_results` and
`cleanup` the block of `scores_gpu` (handle 17) is still allocated; the other 17 blocks
were each released once. -/
theorem session_leaves_scores_gpu_allocated :
    (runSession scenarioRefs scenarioQueries).map
        (fun s => (s.1.scores_gpu, s.2.liveHandles, s.2.released))
      = .ok (17, [17], [4, 5, 6, 7, 8, 0, 1, 2, 3, 12, 11, 13, 14, 16, 15, 9, 10]) := by
  decide

/-- C6, as stated, fails: in the two-job scenario the first `cleanup` releases twelve
blocks, the driver still holds the handle 0 of `offset_ref`, and the second `cleanup` hands
that released handle to `cudaFreeHost` again, which is an invalid release. -/
theorem second_cleanup_releases_again :
    (initializeThenCleanup scenarioRefs scenarioQueries).map
        (fun s => (s.1.offset_ref.handle, s.2.released, s.1.cleanup s.2))
      = .ok (0, [0, 1, 2, 3, 12, 11, 13, 14, 16, 15, 9, 10], .error (.invalidRelease 0))
    ∧ cleanupTwice scenarioRefs scenarioQueries = .error (.invalidRelease 0) := by
  decide

/-- C6, amended: on a batch with at least one and fewer than `2^31` jobs, as many queries
as references and less than `2^32` characters per side (a batch that `initialize` accepts),
one `cleanup` after `initialize` releases each of the four
pinned input buffers and of the eight device buffers of `dealloc_gpu_mem` exactly once; the
driver keeps all its handles, and a second `cleanup` hands the released handle of
`offset_ref` to `cudaFreeHost` again, an invalid release that ends the run. -/
theorem cleanup_valid_once (ref_seqs query_seqs : List Str)
    (hn : 1 ≤ ref_seqs.length) (hcount : ref_seqs.length < 2 ^ 31)
    (hlen : query_seqs.length = ref_seqs.length)
    (hr : (ref_seqs.map List.length).sum < 2 ^ 32)
    (hq : (query_seqs.map List.length).sum < 2 ^ 32) :
    ∃ d h, initializeThenCleanup ref_seqs query_seqs = .ok (d, h)
      ∧ h.released = [d.offset_ref.handle, d.offset_que.handle, d.ref_cstr.handle,
          d.que_cstr.handle, d.offset_ref_gpu.handle, d.offset_query_gpu.handle,
          d.ref_start_gpu, d.ref_end_gpu, d.query_start_gpu, d.query_end_gpu,
          d.ref_cstr_d.handle, d.que_cstr_d.handle]
      ∧ h.released.Nodup
      ∧ d.cleanup h = .error (.invalidRelease d.offset_ref.handle)
      ∧ cleanupTwice ref_seqs query_seqs = .error (.invalidRelease d.offset_ref.handle) := by
  have hc := initializeThenCleanup_eq ref_seqs query_seqs hn hcount hlen hr hq
  obtain ⟨h0, h1, h2, h3, h4, h5, h6, h7, h8, h9, h10, h11, h12, h13, h14, h15, h16, _⟩ :=
    packed_handles driver.created ref_seqs query_seqs
  have hsecond : driver.cleanup (driver.packed driver.created ref_seqs query_seqs Heap.empty)
      ⟨(driver.allocate driver.created ref_seqs.length ref_seqs query_seqs Heap.empty).2.blocks,
        [0, 1, 2, 3, 12, 11, 13, 14, 16, 15, 9, 10]⟩ = .error (.invalidRelease 0) := by
    simp [allocate_heap, bind, Except.bind, driver.cleanup, cudaFreeHost, h0, Heap.release,
      Heap.isLive]
  refine ⟨_, _, hc, ?_, ?_, ?_, ?_⟩
  · simp only [h0, h1, h2, h3, h9, h10, h11, h12, h13, h14, h15, h16]
  · show ([0, 1, 2, 3, 12, 11, 13, 14, 16, 15, 9, 10] : List Nat).Nodup
    decide
  · rw [h0]; exact hsecond
  · simp only [cleanupTwice, hc, bind, Except.bind, h0]
    rw [hsecond]

/-- The two-job scenario satisfies the hypotheses of the amended C6. -/
theorem cleanup_valid_once_scenario :
    ∃ d h, initializeThenCleanup scenarioRefs scenarioQueries = .ok (d, h)
      ∧ h.released = [d.offset_ref.handle, d.offset_que.handle, d.ref_cstr.handle,
          d.que_cstr.handle, d.offset_ref_gpu.handle, d.offset_query_gpu.handle,
          d.ref_start_gpu, d.ref_end_gpu, d.query_start_gpu, d.query_end_gpu,
          d.ref_cstr_d.handle, d.que_cstr_d.handle]
      ∧ h.released.Nodup
      ∧ d.cleanup h = .error (.invalidRelease d.offset_ref.handle)
      ∧ cleanupTwice scenarioRefs scenarioQueries
          = .error (.invalidRelease d.offset_ref.handle) :=
  cleanup_valid_once scenarioRefs scenarioQueries (by decide) (by decide) (by decide) (by decide)
    (by decide)

/-- C7 fails on the code: on the empty batch, from any driver and heap, `initialize`
allocates blocks of zero bytes, runs the offset loop zero times and then reads
`offset_ref[total_alignments - 1]`, that is `offset_ref[-1]`, outside the empty table. -/
theorem empty_batch_reads_before_offset_table (d : driver) (h : Heap) :
    driver.initialize d [] [] h = .error (.outOfRange .offset_ref (-1)) := by
  rfl

section Reading

theorem splitLine_append (r rest : List Char) (hr : '\n' ∉ r) :
    splitLine (r ++ '\n' :: rest) = (r, some rest) := by
  induction r with
  | nil => simp [splitLine]
  | cons a t ih =>
    have ha : a ≠ '\n' := fun h => hr (by simp [h])
    have ht : '\n' ∉ t := fun h => hr (List.mem_cons_of_mem a h)
    simp [splitLine, ha, ih ht]

theorem splitLine_rest_lt (l : List Char) :
    ∀ rest, (splitLine l).2 = some rest → rest.length < l.length := by
  induction l with
  | nil => intro rest h; simp [splitLine] at h
  | cons c cs ih =>
    intro rest h
    by_cases hc : c = '\n'
    · simp [splitLine, hc] at h
      subst h
      simp
    · simp [splitLine, hc] at h
      have := ih rest h
      simp only [List.length_cons]
      omega

/-- A call of `getline` that succeeds consumes at least one character. -/
theorem getline_ok_lt (s : IfStream) (str : Str) (h : (getline s str).ok = true) :
    (getline s str).stream.rest.length < s.rest.length := by
  unfold getline at h ⊢
  split
  · rename_i hbits
    simp [hbits] at h
  · rename_i hbits
    simp only [hbits] at h
    split
    · rename_i hrest
      simp [hrest] at h
    · rename_i c cs hrest
      split
      · rename_i rest hsplit
        rw [hrest]
        exact splitLine_rest_lt (c :: cs) rest hsplit
      · rw [hrest]
        simp

/-- On a good stream whose next line is `r`, `getline` yields `r` and moves past it. -/
theorem getline_good (s : IfStream) (str r rest : List Char) (he : s.eofbit = false)
    (hf : s.failbit = false) (hs : s.rest = r ++ '\n' :: rest) (hr : '\n' ∉ r) :
    getline s str = ⟨true, { s with rest := rest }, r⟩ := by
  have hsplit := splitLine_append r rest hr
  unfold getline
  simp only [he, hf, Bool.or_self, Bool.false_eq_true, if_false]
  cases hcase : r ++ '\n' :: rest with
  | nil => cases r <;> simp at hcase
  | cons c cs =>
    rw [hcase] at hs hsplit
    simp only [hs, hsplit]

/-- On a good stream the outcome of `getline` does not depend on the old value of the
string. -/
theorem getline_str_irrelevant (s : IfStream) (str str' : Str) (he : s.eofbit = false)
    (hf : s.failbit = false) : getline s str = getline s str' := by
  unfold getline
  simp only [he, hf, Bool.or_self, Bool.false_eq_true, if_false]

/-- A round after which the loop goes on has consumed a character of the reference file. -/
theorem readStep_continue_lt (st st' : ReadState) (h : readStep st = .ok (true, st')) :
    st'.ref_file.rest.length < st.ref_file.rest.length := by
  unfold readStep at h
  by_cases hok : (getline st.ref_file st.lineR).ok = true
  · have hlt := getline_ok_lt st.ref_file st.lineR hok
    simp only [hok, if_true] at h
    split at h
    · simp only [if_true, Except.ok.injEq, Prod.mk.injEq, true_and] at h
      subst h
      exact hlt
    · split at h
      · simp only [Except.ok.injEq, Prod.mk.injEq] at h
        rw [← h.2]
        exact hlt
      · simp only [Except.ok.injEq, Prod.mk.injEq] at h
        rw [← h.2]
        exact hlt
  · simp [hok] at h

/-- One round more than the length of what is left of the reference file is enough. -/
theorem readLoop_fuel_succ :
    ∀ (fuel : Nat) (st : ReadState), st.ref_file.rest.length < fuel →
      readLoop (fuel + 1) st = readLoop fuel st := by
  intro fuel
  induction fuel with
  | zero => intro st h; omega
  | succ k ih =>
    intro st h
    unfold readLoop
    cases hstep : readStep st with
    | error e => rfl
    | ok r =>
      obtain ⟨b, st'⟩ := r
      cases b
      · rfl
      · have := readStep_continue_lt st st' hstep
        exact ih st' (by omega)

theorem readLoop_fuel_add (n fuel : Nat) (st : ReadState)
    (h : st.ref_file.rest.length < fuel) : readLoop (fuel + n) st = readLoop fuel st := by
  induction n with
  | zero => rfl
  | succ n ih =>
    rw [← Nat.add_assoc, readLoop_fuel_succ (fuel + n) st (by omega), ih]

/-- While both streams are good, what the reading loop stores does not depend on the old
values of `lineR` and `lineQ`. -/
theorem readLoop_lines_irrelevant (fuel : Nat) (st : ReadState) (a b : Str)
    (h1 : st.ref_file.eofbit = false) (h2 : st.ref_file.failbit = false)
    (h3 : st.quer_file.eofbit = false) (h4 : st.quer_file.failbit = false) :
    (readLoop fuel { st with lineR := a, lineQ := b }).map
        (fun s => (s.ref_sequences, s.que_sequences))
      = (readLoop fuel st).map (fun s => (s.ref_sequences, s.que_sequences)) := by
  cases fuel with
  | zero => rfl
  | succ k =>
    have gR := getline_str_irrelevant st.ref_file a st.lineR h1 h2
    have gQ := getline_str_irrelevant st.quer_file b st.lineQ h3 h4
    have hadv : ReadState.advance { st with lineR := a, lineQ := b } = st.advance := by
      simp only [ReadState.advance, gR, gQ]
    unfold readLoop
    by_cases hok : (getline st.ref_file st.lineR).ok = true
    · have hstep : readStep { st with lineR := a, lineQ := b } = readStep st := by
        simp only [readStep, hadv, gR, hok, if_true]
      rw [hstep]
    · have e1 : readStep { st with lineR := a, lineQ := b }
          = .ok (false, { st with ref_file := (getline st.ref_file st.lineR).stream
                                  lineR := (getline st.ref_file st.lineR).str
                                  lineQ := b }) := by
        simp only [readStep, gR, hok, Bool.false_eq_true, if_false]
      have e2 : readStep st
          = .ok (false, { st with ref_file := (getline st.ref_file st.lineR).stream
                                  lineR := (getline st.ref_file st.lineR).str }) := by
        simp only [readStep, hok, Bool.false_eq_true, if_false]
      rw [e1, e2]
      rfl

/-- A round of the reading loop reports no error and keeps the stored batch within the
limits. -/
theorem readStep_within (st : ReadState)
    (h : WithinLimits st.ref_sequences st.que_sequences) :
    ∃ b st', readStep st = .ok (b, st')
      ∧ WithinLimits st'.ref_sequences st'.que_sequences := by
  unfold readStep
  by_cases hok : (getline st.ref_file st.lineR).ok = true
  · simp only [hok, if_true]
    by_cases hhead : st.advance.lineR.head? = some '>'
    · simp only [hhead, if_true]
      exact ⟨_, _, rfl, h⟩
    · simp only [hhead, if_false]
      by_cases hlim : st.advance.lineR.length ≤ MAX_REF_LEN
          ∧ st.advance.lineQ.length ≤ MAX_QUERY_LEN
      · simp only [hlim, and_self, if_true]
        refine ⟨_, _, rfl, ?_⟩
        obtain ⟨hl, hr, hq⟩ := h
        refine ⟨?_, ?_, ?_⟩
        · simp only [ReadState.push, ReadState.advance, List.length_append,
            List.length_singleton]
          omega
        · intro s hs
          simp only [ReadState.push, ReadState.advance, List.mem_append,
            List.mem_singleton] at hs
          rcases hs with hs | hs
          · exact hr s hs
          · subst hs; exact hlim.1
        · intro s hs
          simp only [ReadState.push, ReadState.advance, List.mem_append,
            List.mem_singleton] at hs
          rcases hs with hs | hs
          · exact hq s hs
          · subst hs; exact hlim.2
      · simp only [hlim, if_false]
        exact ⟨_, _, rfl, h⟩
  · simp only [hok, Bool.false_eq_true, if_false]
    exact ⟨_, _, rfl, h⟩

/-- The reading loop reports no error and keeps the stored batch within the limits. -/
theorem readLoop_within :
    ∀ (fuel : Nat) (st : ReadState), WithinLimits st.ref_sequences st.que_sequences →
      ∃ st', readLoop fuel st = .ok st'
        ∧ WithinLimits st'.ref_sequences st'.que_sequences := by
  intro fuel
  induction fuel with
  | zero => intro st h; exact ⟨st, rfl, h⟩
  | succ k ih =>
    intro st h
    obtain ⟨b, st', hstep, hw⟩ := readStep_within st h
    unfold readLoop
    rw [hstep]
    cases b
    · exact ⟨st', rfl, hw⟩
    · exact ih st' hw

/-- Reading two files reports no error and gives a batch within the limits. -/
theorem readSequences_within (refFile queFile : Option (List Char)) :
    ∃ refs ques, readSequences refFile queFile = .ok (refs, ques)
      ∧ WithinLimits refs ques := by
  unfold readSequences
  split
  · obtain ⟨st', hloop, hw⟩ := readLoop_within ((ifstream refFile).rest.length + 1)
      ⟨ifstream refFile, ifstream queFile, [], [], [], []⟩ ⟨rfl, by simp, by simp⟩
    rw [hloop]
    exact ⟨_, _, rfl, hw⟩
  · exact ⟨[], [], rfl, rfl, by simp, by simp⟩

/-- A round that meets a pair with an over-long line, at any place in the files, stores
nothing, reports nothing and lets the loop go on. -/
theorem readStep_overlong (st : ReadState) (r q restR restQ : List Char)
    (h1 : st.ref_file.eofbit = false) (h2 : st.ref_file.failbit = false)
    (h3 : st.quer_file.eofbit = false) (h4 : st.quer_file.failbit = false)
    (hR : st.ref_file.rest = r ++ '\n' :: restR) (hQ : st.quer_file.rest = q ++ '\n' :: restQ)
    (hr : '\n' ∉ r) (hq : '\n' ∉ q)
    (hlong : MAX_REF_LEN < r.length ∨ MAX_QUERY_LEN < q.length)
    (hsize : st.ref_sequences.length ≠ DATA_SIZE) :
    readStep st = .ok (true,
      { st with ref_file := { st.ref_file with rest := restR }
                quer_file := { st.quer_file with rest := restQ }
                lineR := r
                lineQ := q }) := by
  have gR := getline_good st.ref_file st.lineR r restR h1 h2 hR hr
  have gQ := getline_good st.quer_file st.lineQ q restQ h3 h4 hQ hq
  have hnot : ¬ (r.length ≤ MAX_REF_LEN ∧ q.length ≤ MAX_QUERY_LEN) := by omega
  unfold readStep
  simp only [ReadState.advance, gR, gQ, if_true, hnot, if_false, hsize, ne_eq,
    not_false_eq_true, decide_True]
  split <;> rfl

/-- Two files that open with a pair in which a line is over-long read as the same files
without that pair. -/
theorem readSequences_skip (r q restR restQ : List Char) (hr : '\n' ∉ r) (hq : '\n' ∉ q)
    (hlong : MAX_REF_LEN < r.length ∨ MAX_QUERY_LEN < q.length) :
    readSequences (some (r ++ '\n' :: restR)) (some (q ++ '\n' :: restQ))
      = readSequences (some restR) (some restQ) := by
  have hstep := readStep_overlong
    ⟨ifstream (some (r ++ '\n' :: restR)), ifstream (some (q ++ '\n' :: restQ)), [], [], [], []⟩
    r q restR restQ rfl rfl rfl rfl rfl rfl hr hq hlong
    (show ([] : List Str).length ≠ DATA_SIZE by decide)
  have hfuel : (r ++ '\n' :: restR).length = (restR.length + 1) + r.length := by
    simp only [List.length_append, List.length_cons]
    omega
  have hloop : readLoop ((r ++ '\n' :: restR).length + 1)
      ⟨ifstream (some (r ++ '\n' :: restR)), ifstream (some (q ++ '\n' :: restQ)),
        [], [], [], []⟩
      = readLoop (restR.length + 1)
          ⟨ifstream (some restR), ifstream (some restQ), r, q, [], []⟩ := by
    rw [readLoop, hstep]
    simp only []
    rw [hfuel]
    exact readLoop_fuel_add r.length (restR.length + 1)
      ⟨ifstream (some restR), ifstream (some restQ), r, q, [], []⟩
      (by simp [ifstream])
  have hlines := readLoop_lines_irrelevant (restR.length + 1)
    ⟨ifstream (some restR), ifstream (some restQ), [], [], [], []⟩ r q rfl rfl rfl rfl
  simp only [readSequences, ifstream, Bool.and_self, if_true] at hloop hlines ⊢
  rw [hloop, hlines]

/-- On a good stream with nothing left `getline` fails and erases the string. -/
theorem getline_at_end (s : IfStream) (str : Str) (he : s.eofbit = false)
    (hf : s.failbit = false) (hs : s.rest = []) :
    getline s str = ⟨false, { s with eofbit := true, failbit := true }, []⟩ := by
  unfold getline
  simp only [he, hf, Bool.or_self, Bool.false_eq_true, if_false, hs]

/-- On a stream that is not good `getline` fails and leaves the string as it is. -/
theorem getline_not_good (s : IfStream) (str : Str) (h : (s.eofbit || s.failbit) = true) :
    getline s str = ⟨false, { s with failbit := true }, str⟩ := by
  unfold getline
  simp only [h, if_true]

/-- A round after which the comparison loop goes on has consumed a character of the
reference file. -/
theorem verifyStep_continue_lt (st st' : VerifyState) (h : verifyStep st = (true, st')) :
    st'.ref_file.rest.length < st.ref_file.rest.length := by
  unfold verifyStep at h
  by_cases hok : (getline st.ref_file st.ref_line).ok = true
  · have hlt := getline_ok_lt st.ref_file st.ref_line hok
    simp only [hok, if_true] at h
    split at h
    · simp only [Prod.mk.injEq, true_and] at h
      rw [← h]
      exact hlt
    · simp at h
  · simp [hok] at h

/-- One round more than the length of what is left of the reference file is enough for
the comparison loop. -/
theorem verifyLoop_fuel_succ :
    ∀ (fuel : Nat) (st : VerifyState), st.ref_file.rest.length < fuel →
      verifyLoop (fuel + 1) st = verifyLoop fuel st := by
  intro fuel
  induction fuel with
  | zero => intro st h; omega
  | succ k ih =>
    intro st h
    unfold verifyLoop
    cases hstep : verifyStep st with
    | mk b st' =>
      cases b
      · rfl
      · have := verifyStep_continue_lt st st' hstep
        exact ih st' (by omega)

theorem length_fileOf_ge (ls : List Str) : ls.length ≤ (fileOf ls).length := by
  induction ls with
  | nil => simp [fileOf]
  | cons l t ih =>
    simp only [fileOf, List.map_cons, List.flatten_cons, List.length_append,
      List.length_cons, List.length_nil] at ih ⊢
    omega

/-- While the two files show the same lines the comparison loop goes on and `isSame`
stays 0. -/
theorem verifyLoop_common (ls : List Str) (hls : ∀ l ∈ ls, '\n' ∉ l) (restR restT : List Char)
    (fuel : Nat) :
    ∀ st : VerifyState, st.ref_file.eofbit = false → st.ref_file.failbit = false →
      st.test_file.eofbit = false → st.test_file.failbit = false →
      st.ref_file.rest = fileOf ls ++ restR → st.test_file.rest = fileOf ls ++ restT →
      st.isSame = 0 →
      ∃ rl tl, verifyLoop (ls.length + fuel) st
        = verifyLoop fuel ⟨{ st.ref_file with rest := restR },
            { st.test_file with rest := restT }, rl, tl, 0⟩ := by
  induction ls with
  | nil =>
    intro st _ _ _ _ hR hT hsame
    refine ⟨st.ref_line, st.test_line, ?_⟩
    simp only [fileOf, List.map_nil, List.flatten_nil, List.nil_append] at hR hT
    simp only [List.length_nil, Nat.zero_add, ← hR, ← hT, ← hsame]
  | cons l t ih =>
    intro st h1 h2 h3 h4 hR hT hsame
    have hl : '\n' ∉ l := hls l (List.mem_cons_self l t)
    have ht : ∀ x ∈ t, '\n' ∉ x := fun x hx => hls x (List.mem_cons_of_mem l hx)
    have hR' : st.ref_file.rest = l ++ '\n' :: (fileOf t ++ restR) := by
      rw [hR]; simp [fileOf]
    have hT' : st.test_file.rest = l ++ '\n' :: (fileOf t ++ restT) := by
      rw [hT]; simp [fileOf]
    have gR := getline_good st.ref_file st.ref_line l _ h1 h2 hR' hl
    have gT := getline_good st.test_file st.test_line l _ h3 h4 hT' hl
    have hstep : verifyStep st
        = (true, ⟨{ st.ref_file with rest := fileOf t ++ restR },
            { st.test_file with rest := fileOf t ++ restT }, l, l, 0⟩) := by
      simp only [verifyStep, gR, gT, if_true, ne_eq, not_true_eq_false, if_false, hsame]
    obtain ⟨rl, tl, hrec⟩ := ih ht
      ⟨{ st.ref_file with rest := fileOf t ++ restR },
        { st.test_file with rest := fileOf t ++ restT }, l, l, 0⟩ h1 h2 h3 h4 rfl rfl rfl
    refine ⟨rl, tl, ?_⟩
    have hfuel : (l :: t).length + fuel = (t.length + fuel) + 1 := by
      simp only [List.length_cons]; omega
    rw [hfuel, verifyLoop, hstep]
    exact hrec

/-- For every file of complete lines, a reference file with one more line checks as
identical: `verify_correctness` returns 0. -/
theorem verify_correctness_extra_reference_line (ls : List Str) (x : Str)
    (hls : ∀ l ∈ ls, '\n' ∉ l) (hx : '\n' ∉ x) :
    verify_correctness (some (fileOf ls ++ (x ++ ['\n']))) (some (fileOf ls)) = 0 := by
  have hge := length_fileOf_ge ls
  obtain ⟨k, hk⟩ : ∃ k, (fileOf ls ++ (x ++ ['\n'])).length + 1 = ls.length + (k + 1) :=
    ⟨(fileOf ls ++ (x ++ ['\n'])).length - ls.length, by
      simp only [List.length_append, List.length_cons, List.length_nil]; omega⟩
  obtain ⟨rl, tl, hloop⟩ := verifyLoop_common ls hls (x ++ ['\n']) [] (k + 1)
    ⟨ifstream (some (fileOf ls ++ (x ++ ['\n']))), ifstream (some (fileOf ls)), [], [], 0⟩
    rfl rfl rfl rfl rfl (by simp [ifstream]) rfl
  have gR := getline_good ⟨true, x ++ ['\n'], false, false⟩ rl x [] rfl rfl rfl hx
  have gT := getline_at_end ⟨true, [], false, false⟩ tl rfl rfl rfl
  have gR2 := getline_at_end ⟨true, [], false, false⟩ x rfl rfl rfl
  have gT2 := getline_not_good ⟨true, [], true, true⟩ [] rfl
  simp only [verify_correctness, ifstream, Bool.and_self, if_true] at hloop ⊢
  rw [hk, hloop, verifyLoop]
  simp only [verifyStep, gR, gT, if_true, Bool.false_eq_true, if_false, verifyTail, gR2, gT2,
    false_and]

end Reading

/-- C8, as stated, fails: a reference line of 1201 characters, one more than
`MAX_REF_LEN`, is left out of the batch together with its query line, and reading the files
succeeds: no error is reported. -/
theorem overlong_reference_is_dropped_silently :
    MAX_REF_LEN < longLine.length
      ∧ readSequences (some (longLine ++ '\n' :: ['A', 'C', '\n']))
            (some (['A', 'C', 'G', 'G'] ++ '\n' :: ['A', 'C', '\n']))
          = .ok ([['A', 'C']], [['A', 'C']]) := by
  have hlen : MAX_REF_LEN < longLine.length := by
    rw [longLine, List.length_replicate]
    decide
  refine ⟨hlen, ?_⟩
  rw [readSequences_skip longLine ['A', 'C', 'G', 'G'] ['A', 'C', '\n'] ['A', 'C', '\n']
    (fun hmem => absurd (List.eq_of_mem_replicate hmem) (by decide)) (by decide)
    (Or.inl hlen)]
  decide

/-- C8, amended: a pair whose reference line is longer than `MAX_REF_LEN` or whose query
line is longer than `MAX_QUERY_LEN` is left out before packing and nothing is reported.
In any round of the reading loop that meets such a pair (both streams good, fewer than
`DATA_SIZE` sequences stored) nothing is stored, no error is raised and the loop goes on;
files that open with such a pair give exactly the batch of the files without these two
lines; reading them ends without an error, and every sequence in the batch is within the
limits, with as many queries as references. -/
theorem overlong_pair_is_skipped (r q restR restQ : List Char)
    (hr : '\n' ∉ r) (hq : '\n' ∉ q)
    (hlong : MAX_REF_LEN < r.length ∨ MAX_QUERY_LEN < q.length) :
    (∀ st : ReadState,
        st.ref_file.eofbit = false → st.ref_file.failbit = false →
        st.quer_file.eofbit = false → st.quer_file.failbit = false →
        st.ref_file.rest = r ++ '\n' :: restR → st.quer_file.rest = q ++ '\n' :: restQ →
        st.ref_sequences.length ≠ DATA_SIZE →
        readStep st = .ok (true,
          { st with ref_file := { st.ref_file with rest := restR }
                    quer_file := { st.quer_file with rest := restQ }
                    lineR := r
                    lineQ := q }))
      ∧ readSequences (some (r ++ '\n' :: restR)) (some (q ++ '\n' :: restQ))
          = readSequences (some restR) (some restQ)
      ∧ ∃ refs ques,
          readSequences (some (r ++ '\n' :: restR)) (some (q ++ '\n' :: restQ))
            = .ok (refs, ques)
          ∧ WithinLimits refs ques :=
  ⟨fun st h1 h2 h3 h4 hR hQ hsize =>
      readStep_overlong st r q restR restQ h1 h2 h3 h4 hR hQ hr hq hlong hsize,
    readSequences_skip r q restR restQ hr hq hlong,
    readSequences_within (some (r ++ '\n' :: restR)) (some (q ++ '\n' :: restQ))⟩

/-- A query line of 601 characters before a pair within the limits meets the hypotheses of
the amended C8. -/
theorem overlong_query_is_skipped :
    readSequences (some (['A', 'C'] ++ '\n' :: ['G', '\n']))
          (some (List.replicate 601 'T' ++ '\n' :: ['G', 'G', '\n']))
        = readSequences (some ['G', '\n']) (some ['G', 'G', '\n'])
      ∧ ∃ refs ques,
          readSequences (some (['A', 'C'] ++ '\n' :: ['G', '\n']))
              (some (List.replicate 601 'T' ++ '\n' :: ['G', 'G', '\n']))
            = .ok (refs, ques)
          ∧ WithinLimits refs ques :=
  (overlong_pair_is_skipped ['A', 'C'] (List.replicate 601 'T') ['G', '\n'] ['G', 'G', '\n']
    (by decide) (fun hmem => absurd (List.eq_of_mem_replicate hmem) (by decide))
    (Or.inr (by rw [List.length_replicate]; decide))).2

/-- C9, as stated, fails: in the two-job scenario the blocks behind `ref_cstr_d` and
`que_cstr_d` have 8 bytes each (longest sequence 4, times 2 jobs), while the packed length
of each side is 6. -/
theorem device_buffers_exceed_packed_length :
    ( driver.initialize driver.created scenarioRefs scenarioQueries Heap.empty).map
        (fun s => (s.2.blocks[s.1.ref_cstr_d.handle]?, s.1.total_length_ref,
          s.2.blocks[s.1.que_cstr_d.handle]?, s.1.total_length_que))
      = .ok (some ⟨.device, 8⟩, 6, some ⟨.device, 8⟩, 6) := by
  decide

/-- C9, amended: on a batch with at least one and fewer than `2^31` jobs, as many queries
as references and less than `2^32` characters per side (a batch that `initialize` accepts),
the device buffers `ref_cstr_d` and `que_cstr_d` allocated
by `initialize` have the worst-case sizes `max_ref_size * total_alignments` and
`max_que_size * total_alignments` bytes (longest sequence of the side times number of
jobs), which are at least the packed lengths `total_length_ref` and `total_length_que`, the
sums of the sequence lengths of the side. -/
theorem device_buffers_have_worst_case_size (d : driver) (ref_seqs query_seqs : List Str)
    (h : Heap) (hn : 1 ≤ ref_seqs.length) (hcount : ref_seqs.length < 2 ^ 31)
    (hlen : query_seqs.length = ref_seqs.length)
    (hr : (ref_seqs.map List.length).sum < 2 ^ 32)
    (hq : (query_seqs.map List.length).sum < 2 ^ 32) :
    ∃ d' h', driver.initialize d ref_seqs query_seqs h = .ok (d', h')
      ∧ h'.blocks[d'.ref_cstr_d.handle]?
          = some ⟨.device, sizeofChar * d'.max_ref_size * d'.total_alignments⟩
      ∧ h'.blocks[d'.que_cstr_d.handle]?
          = some ⟨.device, sizeofChar * d'.max_que_size * d'.total_alignments⟩
      ∧ d'.total_alignments = ref_seqs.length
      ∧ d'.max_ref_size = getMaxLength ref_seqs
      ∧ d'.max_que_size = getMaxLength query_seqs
      ∧ (∀ s ∈ ref_seqs, s.length ≤ d'.max_ref_size)
      ∧ (∀ s ∈ query_seqs, s.length ≤ d'.max_que_size)
      ∧ d'.total_length_ref = (ref_seqs.map List.length).sum
      ∧ d'.total_length_que = (query_seqs.map List.length).sum
      ∧ d'.total_length_ref ≤ d'.max_ref_size * d'.total_alignments
      ∧ d'.total_length_que ≤ d'.max_que_size * d'.total_alignments := by
  have hvr : ∀ s ∈ ref_seqs, s.length < 2 ^ 32 := fun s hs =>
    Nat.lt_of_le_of_lt (length_le_totalLength ref_seqs s hs) hr
  have hvq : ∀ s ∈ query_seqs, s.length < 2 ^ 32 := fun s hs =>
    Nat.lt_of_le_of_lt (length_le_totalLength query_seqs s hs) hq
  refine ⟨_, _, initialize_eq d ref_seqs query_seqs h hn hcount hlen hr hq,
    (packed_cstr_d_blocks d ref_seqs query_seqs h).1,
    (packed_cstr_d_blocks d ref_seqs query_seqs h).2, rfl, rfl, rfl,
    (foldl_maxLength_bound ref_seqs hvr 0).2, (foldl_maxLength_bound query_seqs hvq 0).2,
    rfl, rfl, totalLength_le_capacity ref_seqs hr, ?_⟩
  have := totalLength_le_capacity query_seqs hq
  rw [hlen] at this
  exact this

/-- The two-job scenario satisfies the hypotheses of the amended C9; its device character
buffers have `max_ref_size * total_alignments` and `max_que_size * total_alignments`
bytes. -/
theorem device_buffers_scenario :
    ∃ d' h', driver.initialize driver.created scenarioRefs scenarioQueries Heap.empty
        = .ok (d', h')
      ∧ h'.blocks[d'.ref_cstr_d.handle]?
          = some ⟨.device, sizeofChar * d'.max_ref_size * d'.total_alignments⟩
      ∧ h'.blocks[d'.que_cstr_d.handle]?
          = some ⟨.device, sizeofChar * d'.max_que_size * d'.total_alignments⟩ := by
  obtain ⟨d', h', h1, h2, h3, _⟩ := device_buffers_have_worst_case_size driver.created
    scenarioRefs scenarioQueries Heap.empty (by decide) (by decide) (by decide) (by decide)
    (by decide)
  exact ⟨d', h', h1, h2, h3⟩

/-- C10 fails on the code: with reference file `a\nb\n` and test file `a\n` (the reference
has one more trailing line) `verify_correctness` returns 0, the value for identical files;
with the files exchanged it returns -3. -/
theorem verify_correctness_misses_extra_reference_line :
    verify_correctness (some ['a', '\n', 'b', '\n']) (some ['a', '\n']) = 0
      ∧ verify_correctness (some ['a', '\n']) (some ['a', '\n', 'b', '\n']) = -3
      ∧ verify_correctness (some ['a', '\n', 'b', '\n']) (some ['a', '\n', 'b', '\n']) = 0
      ∧ verify_correctness (some ['a', '\n', 'b']) (some ['a']) = 0 := by
  decide

section Bounds

end Bounds

end ADEPT


